import Mathlib

/-!
Verification of the clewdr format-conversion core.

This file gives a shallow embedding of the format-conversion primitives of
the repository (JSON-schema cleaning, tool-argument remapping, cache-control
stripping, web-search citation formatting, the OpenAI→Claude request
conversion, the global thought-signature slot, the Claude→OpenAI stream
transducer and the Claude-Code system-prompt preprocessing) and proves or
refutes the specification claims about them.

JSON values are modelled by the inductive `Json` below; `serde_json::Map` is
modelled by an association list (`JsObj`).  serde maps have unique keys, so
`Map::remove` is modelled by removing every binding of the key and
`Map::insert` by replacing the value of the first binding in place (or
appending a new binding at the end), which is exactly the behaviour of
serde's map on duplicate-free lists.  JSON numbers are modelled by integers:
nothing in the verified code distinguishes finer numeric shapes.
-/

/-- Model of a `serde_json::Value`. -/
inductive Json where
  | null : Json
  | bool (b : Bool) : Json
  | num (n : Int) : Json
  | str (s : String) : Json
  | arr (xs : List Json) : Json
  | obj (kvs : List (String × Json)) : Json

/-- Association-list model of a `serde_json::Map<String, Value>`. -/
abbrev JsObj := List (String × Json)

/-- Value of the first binding of `k`, i.e. `Map::get`. -/
def jlookup (k : String) : JsObj → Option Json
  | [] => none
  | (k', v) :: rest => if k' == k then some v else jlookup k rest

/-- Whether the map binds `k`, i.e. `Map::contains_key`. -/
def hasKey (k : String) : JsObj → Bool
  | [] => false
  | (k', _) :: rest => k' == k || hasKey k rest

/-- Remove every binding of `k`, i.e. `Map::remove` on a unique-key map. -/
def eraseKey (k : String) : JsObj → JsObj
  | [] => []
  | (k', v) :: rest => if k' == k then eraseKey k rest else (k', v) :: eraseKey k rest

/-- Replace the value of the first binding of `k` in place, or append a new
binding: `Map::insert` on a unique-key map. -/
def insertKey (k : String) (v : Json) : JsObj → JsObj
  | [] => [(k, v)]
  | (k', v') :: rest =>
      if k' == k then (k, v) :: rest else (k', v') :: insertKey k v rest

/-- Model of `Value::as_str`. -/
def Json.asStr : Json → Option String
  | .str s => some s
  | _ => none

/-- Model of `Value::as_array`. -/
def Json.asArr : Json → Option (List Json)
  | .arr xs => some xs
  | _ => none

/-- Model of `Value::as_object`. -/
def Json.asObj : Json → Option JsObj
  | .obj kvs => some kvs
  | _ => none

/-- Model of `Value::is_object`. -/
def Json.isObj : Json → Bool
  | .obj _ => true
  | _ => false

/-- Model of `Value::is_array`. -/
def Json.isArr : Json → Bool
  | .arr _ => true
  | _ => false

/-- Model of `Value::get` on an object (returns `none` on non-objects). -/
def Json.get (k : String) : Json → Option Json
  | .obj kvs => jlookup k kvs
  | _ => none

/-- Model of `value.get(k).and_then(|v| v.as_str())`. -/
def Json.getStr (k : String) (j : Json) : Option String :=
  (j.get k).bind Json.asStr

/-- Model of `value.get(k).and_then(|v| v.as_array())`. -/
def Json.getArr (k : String) (j : Json) : Option (List Json) :=
  (j.get k).bind Json.asArr

/-! Embedding of `src/format/schema_cleaner.rs`. -/

/-- The `UNSUPPORTED_KEYWORDS` table of `schema_cleaner.rs`. -/
def UNSUPPORTED_KEYWORDS : List String :=
  ["additionalProperties", "default", "$schema", "$defs", "definitions", "$ref",
   "$id", "$comment", "title", "minLength", "maxLength", "pattern", "format",
   "minItems", "maxItems", "examples", "allOf", "anyOf", "oneOf", "not",
   "if", "then", "else", "dependentSchemas", "dependentRequired",
   "unevaluatedProperties", "unevaluatedItems", "contentMediaType",
   "contentEncoding", "const"]

/-- Whether a type-array element is the string `"null"`
(`v.as_str() == Some("null")` in the source). -/
def isNullTy (v : Json) : Bool := v.asStr == some "null"

/-- Number of non-`"null"` elements of a type array. -/
def countNonNull (ts : List Json) : Nat := (ts.filter (fun t => !isNullTy t)).length

/-- The type-array coercion step of `clean_json_schema_recursive`, applied to
the keyword-stripped, child-cleaned entry list.  `gen` is the already-cleaned
element list for the generated `anyOf` (the source cleans those elements when
the recursion reaches the freshly inserted `anyOf`; the entries it visits are
exactly the coerced wrappers, so the cleaning can be fused into their
construction). -/
def applyTypeCoercion (m : JsObj) (gen : List Json) : JsObj :=
  match jlookup "type" m with
  | some (.arr ts) =>
      let m1 := if ts.any isNullTy then insertKey "nullable" (.bool true) m else m
      match ts.filter (fun t => !isNullTy t) with
      | [] => m1
      | [t] => insertKey "type" t m1
      | _ :: _ :: _ => insertKey "anyOf" (.arr gen) (eraseKey "type" m1)
  | _ => m

mutual
/-- Model of `clean_json_schema_recursive` (and hence of `clean_json_schema`,
which merely delegates to it).  The source removes the unsupported keywords,
coerces a type array, and then recurses into `properties.*`, `items` and the
elements of `anyOf`/`oneOf`/`allOf`.  After keyword removal the only
`anyOf`/`oneOf`/`allOf` binding that can exist is the `anyOf` inserted by the
coercion itself, whose elements are the wrappers `{type: T}`; the model
therefore cleans exactly the unsupported-keyword-stripped entries
(`cleanEntries`, which also cleans `properties`/`items` children — keyword
removal and coercion touch neither) and builds the generated `anyOf` with its
elements already cleaned (`genTypeItems`/`cleanTypeWrap`). -/
def clean_json_schema : Json → Json
  | .obj kvs => .obj (applyTypeCoercion (cleanEntries kvs) (genTypeItems kvs))
  | j => j

/-- Keyword removal fused with the recursion into `properties.*` and `items`:
entries whose key is unsupported are dropped, the `properties` and `items`
values are cleaned as in the source, and every other entry is kept as is. -/
def cleanEntries : JsObj → JsObj
  | [] => []
  | (k, v) :: rest =>
      if UNSUPPORTED_KEYWORDS.contains k then cleanEntries rest
      else if k == "properties" then ("properties", cleanPropsVal v) :: cleanEntries rest
      else if k == "items" then ("items", cleanItemsVal v) :: cleanEntries rest
      else (k, v) :: cleanEntries rest

/-- Recursion into `properties`: each property value is cleaned when the
`properties` value is an object; any other shape is left alone. -/
def cleanPropsVal : Json → Json
  | .obj ps => .obj (cleanVals ps)
  | v => v

/-- Clean every value of a property map. -/
def cleanVals : JsObj → JsObj
  | [] => []
  | (k, v) :: rest => (k, clean_json_schema v) :: cleanVals rest

/-- Recursion into `items`: an object is cleaned in place, each element of an
array is cleaned, anything else is left alone. -/
def cleanItemsVal : Json → Json
  | .obj kvs => .obj (applyTypeCoercion (cleanEntries kvs) (genTypeItems kvs))
  | .arr xs => .arr (cleanList xs)
  | v => v

/-- Clean every element of a list (the `items`-array case). -/
def cleanList : List Json → List Json
  | [] => []
  | x :: xs => clean_json_schema x :: cleanList xs

/-- The cleaned element list of the `anyOf` generated by the type-array
coercion: the first `type` binding, when it is an array, contributes one
cleaned wrapper `{type: T}` per non-`"null"` element. -/
def genTypeItems : JsObj → List Json
  | [] => []
  | (k, v) :: rest =>
      if k == "type" then
        match v with
        | .arr ts => cleanTypeWraps ts
        | _ => []
      else genTypeItems rest

/-- Cleaned wrappers for the non-`"null"` elements of a type array. -/
def cleanTypeWraps : List Json → List Json
  | [] => []
  | t :: ts => if isNullTy t then cleanTypeWraps ts else cleanTypeWrap t :: cleanTypeWraps ts

/-- Cleaning of a generated wrapper `{type: T}`: the node has no unsupported
keyword and no `properties`/`items`, so only the type-array coercion acts,
recursively wrapping again when `T` is itself a multi-entry array. -/
def cleanTypeWrap (t : Json) : Json :=
  match t with
  | .arr ts =>
      let nullable : JsObj := if ts.any isNullTy then [("nullable", .bool true)] else []
      match ts.filter (fun t' => !isNullTy t') with
      | [] => .obj ([("type", .arr ts)] ++ nullable)
      | [t'] => .obj ([("type", t')] ++ nullable)
      | _ :: _ :: _ => .obj (nullable ++ [("anyOf", .arr (cleanTypeWraps ts))])
  | _ => .obj [("type", t)]
end


/-- Shape restriction on a `type` value under which the type-array coercion
never fires destructively: an array value has at most one non-`"null"`
element and no array element. -/
def okTypeVal : Json → Bool
  | .arr ts => decide (countNonNull ts ≤ 1) && ts.all (fun t => !t.isArr)
  | _ => true

mutual
/-- Schemas whose every `type` binding (anywhere) satisfies `okTypeVal`: on
these the multi-type coercion of `clean_json_schema` never produces an
`anyOf`, the keyword the next pass would delete. -/
def cleanSafe : Json → Bool
  | .obj kvs => cleanSafeKvs kvs
  | .arr xs => cleanSafeList xs
  | _ => true

/-- Entry-wise form of `cleanSafe`. -/
def cleanSafeKvs : JsObj → Bool
  | [] => true
  | (k, v) :: rest =>
      (if k == "type" then okTypeVal v else true) && cleanSafe v && cleanSafeKvs rest

/-- Element-wise form of `cleanSafe`. -/
def cleanSafeList : List Json → Bool
  | [] => true
  | x :: xs => cleanSafe x && cleanSafeList xs
end


/-! Embedding of `src/format/param_remapper.rs`. -/

/-- One rename step of `remap_function_call_args`: `obj.remove(src)` followed,
when the destination key is absent from the remainder, by
`obj.insert(dst, value)`. -/
def renameKey (src dst : String) (kvs : JsObj) : JsObj :=
  match jlookup src kvs with
  | some v =>
      let m := eraseKey src kvs
      if hasKey dst m then m else insertKey dst v m
  | none => kvs

/-- Model of `remap_function_call_args`: per-tool key renames on a JSON
object argument value; non-objects and unknown tools are left unchanged. -/
def remap_function_call_args (toolName : String) (args : Json) : Json :=
  match args with
  | .obj kvs =>
      if toolName == "Grep" then .obj (renameKey "query" "pattern" kvs)
      else if toolName == "Glob" then .obj (renameKey "query" "pattern" kvs)
      else if toolName == "Read" then .obj (renameKey "path" "file_path" kvs)
      else if toolName == "Write" then .obj (renameKey "path" "file_path" kvs)
      else if toolName == "Edit" then .obj (renameKey "path" "file_path" kvs)
      else if toolName == "ListDir" || toolName == "LS" then
        .obj (renameKey "path" "directory" kvs)
      else args
  | _ => args

/-- Model of `remap_tool_use`, which merely delegates. -/
def remap_tool_use (name : String) (input : Json) : Json :=
  remap_function_call_args name input

/-- Model of `remap_tool_result_args`: a no-op placeholder in the source. -/
def remap_tool_result_args (_toolUseId : String) (args : Json) : Json := args

/-- Model of `remap_oai_to_claude_args`: the `Grep`/`Glob`/`Read`/`Write`/
`Edit` arms of the source are empty; only `web_search` renames `q` to
`query`, and only when `query` is not already present (the source checks
`contains_key("query")` before inserting and removing). -/
def remap_oai_to_claude_args (toolName : String) (args : Json) : Json :=
  match args with
  | .obj kvs =>
      if toolName == "web_search" then
        match jlookup "q" kvs with
        | some q =>
            if hasKey "query" kvs then .obj kvs
            else .obj (eraseKey "q" (insertKey "query" q kvs))
        | none => .obj kvs
      else .obj kvs
  | _ => args

/-- The rename table of spec section 4.3 restricted to the tools that
`remap_function_call_args` actually handles. -/
def remapTable : List (String × String × String) :=
  [("Grep", "query", "pattern"), ("Glob", "query", "pattern"),
   ("Read", "path", "file_path"), ("Write", "path", "file_path"),
   ("Edit", "path", "file_path"), ("ListDir", "path", "directory"),
   ("LS", "path", "directory")]


/-! Embedding of `src/format/signature_store.rs`.  The process-wide slot
`GLOBAL_THOUGHT_SIG : OnceLock<Mutex<Option<String>>>` is modelled by
explicit state passing of its `Option String` content; each operation maps
the state before the lock was taken to the state after it is released. -/

/-- Model of `store_thought_signature`: empty signatures are ignored, and a
non-empty one is written iff the slot is empty or the new value is strictly
longer than the stored one. -/
def store_thought_signature (sig : String) (slot : Option String) : Option String :=
  if sig.isEmpty then slot
  else
    let shouldStore :=
      match slot with
      | none => true
      | some existing => decide (existing.length < sig.length)
    if shouldStore then some sig else slot

/-- Model of `get_thought_signature`: returns a copy of the slot. -/
def get_thought_signature (slot : Option String) : Option String := slot

/-- Model of `clear_thought_signature`. -/
def clear_thought_signature (_slot : Option String) : Option String := none

/-- Model of `has_valid_signature`. -/
def has_valid_signature (minLength : Nat) (slot : Option String) : Bool :=
  match slot with
  | some s => decide (minLength ≤ s.length)
  | none => false

/-- A sequence of `store_thought_signature` calls against the slot. -/
def runStores (sigs : List String) (slot : Option String) : Option String :=
  sigs.foldl (fun st sig => store_thought_signature sig st) slot

/-- Length of the stored value, zero when the slot is empty. -/
def slotLen : Option String → Nat
  | none => 0
  | some s => s.length


/-! Embedding of `src/format/web_search.rs` (the markdown formatter). -/

/-- Model of the `Citation` struct. -/
structure Citation where
  url : String
  title : String
  snippet : String
  start_index : Option Nat
  end_index : Option Nat

/-- UTF-8 byte width of a character (Rust strings are UTF-8, and `str::len`
counts bytes). -/
def charUtf8Size (c : Char) : Nat :=
  if c.val < 0x80 then 1
  else if c.val < 0x800 then 2
  else if c.val < 0x10000 then 3
  else 4

/-- Rust `str::len`: the UTF-8 byte length. -/
def strByteLen (s : String) : Nat := (s.data.map charUtf8Size).sum

/-- Helper for `takeBytes`: consume characters until exactly `n` bytes are
taken; `none` when `n` falls strictly inside a character or past the end. -/
def takeBytesAux : Nat → List Char → Option (List Char)
  | 0, _ => some []
  | _ + 1, [] => none
  | n, c :: cs =>
      if charUtf8Size c ≤ n then (takeBytesAux (n - charUtf8Size c) cs).map (c :: ·)
      else none

/-- Rust byte slicing `&s[..n]`: the prefix of `s` occupying exactly `n`
bytes, or `none` — modelling the Rust panic — when byte `n` is not a
character boundary. -/
def takeBytes (n : Nat) (s : String) : Option String :=
  (takeBytesAux n s.data).map (fun l => String.mk l)

/-- Model of `snippet.replace('\n', " ")`: the one-character pattern is
replaced character by character. -/
def replaceNewlines (s : String) : String :=
  String.mk (s.data.map (fun c => if c = '\n' then ' ' else c))

/-- The snippet truncation of `format_citations_as_markdown`:
`if snippet.len() > 200 { format!("{}...", &snippet[..200]) }`. -/
def truncateSnippet (snippet : String) : Option String :=
  if 200 < strByteLen snippet then (takeBytes 200 snippet).map (fun t => t ++ "...")
  else some snippet

/-- One numbered citation item of the markdown body (`i` is zero-based). -/
def formatCitationLine (i : Nat) (c : Citation) : Option String :=
  let head := toString (i + 1) ++ ". [" ++ c.title ++ "](" ++ c.url ++ ")\n"
  if c.snippet.isEmpty then some head
  else (truncateSnippet c.snippet).map
    (fun sn => head ++ "   > " ++ replaceNewlines sn ++ "\n")

/-- The numbered items of the markdown body, starting at index `i`. -/
def formatCitationsAux (i : Nat) : List Citation → Option String
  | [] => some ""
  | c :: cs =>
      match formatCitationLine i c, formatCitationsAux (i + 1) cs with
      | some line, some rest => some (line ++ rest)
      | _, _ => none

/-- Model of `format_citations_as_markdown`; `none` models a panic of the
Rust function (a byte slice off a character boundary). -/
def format_citations_as_markdown (citations : List Citation)
    (searchQuery : Option String) : Option String :=
  if citations.isEmpty then some ""
  else
    let header := "\n\n---\n" ++
      (match searchQuery with
       | some q => "**🔍 已为您搜索：** " ++ q ++ "\n\n"
       | none => "") ++
      "**📚 来源：**\n"
    (formatCitationsAux 0 citations).map (fun body => header ++ body)

/-- Model of `merge_citations_into_text`. -/
def merge_citations_into_text (text : String) (citations : List Citation)
    (searchQuery : Option String) : Option String :=
  if citations.isEmpty then some text
  else (format_citations_as_markdown citations searchQuery).map
    (fun md => text ++ md)

/-- A snippet of 199 ASCII characters followed by one three-byte character:
202 UTF-8 bytes, with byte 200 falling inside the last character. -/
def badSnippet : String := String.mk (List.replicate 199 'a' ++ ['€'])


/-! Embedding of `src/types/claude.rs` (the canonical message data model). -/

/-- Model of `CacheControlType`. -/
inductive CacheControlType where
  | ephemeral
  deriving DecidableEq

/-- Model of `CacheControlEphemeral`. -/
structure CacheControlEphemeral where
  type_ : CacheControlType
  ttl : Option String
  deriving DecidableEq

/-- Model of `Role`. -/
inductive Role where
  | system
  | user
  | assistant
  deriving DecidableEq

/-- Model of `ImageSource`. -/
structure ImageSource where
  type_ : String
  media_type : String
  data : String

/-- Model of `ImageUrl`. -/
structure ImageUrl where
  url : String

/-- Model of `DocumentSource`. -/
structure DocumentSource where
  type_ : String
  media_type : Option String
  data : Option String
  url : Option String

/-- Model of `ContentBlock`; the `search_result`, `server_tool_use` and
`web_search_tool_result` variants hold their flattened raw fields as a JSON
value, and `tool_use.input` / `tool_result.content` are JSON values, exactly
as in the source. -/
inductive ContentBlock where
  | text (text : String) (cache_control : Option CacheControlEphemeral)
  | image (source : ImageSource) (cache_control : Option CacheControlEphemeral)
  | imageUrl (image_url : ImageUrl)
  | document (source : DocumentSource) (cache_control : Option CacheControlEphemeral)
  | toolUse (id : String) (name : String) (input : Json) (signature : Option String)
      (cache_control : Option CacheControlEphemeral)
  | toolResult (tool_use_id : String) (content : Json) (is_error : Option Bool)
      (cache_control : Option CacheControlEphemeral)
  | thinking (thinking : String) (signature : Option String)
      (cache_control : Option CacheControlEphemeral)
  | redactedThinking (data : String)
  | searchResult (data : Json)
  | serverToolUse (data : Json)
  | webSearchToolResult (data : Json)

/-- Model of `MessageContent`. -/
inductive MessageContent where
  | text (content : String)
  | blocks (content : List ContentBlock)

/-- Model of `Message`. -/
structure Message where
  role : Role
  content : MessageContent

/-- Model of `ContentBlock::clear_cache_control`: resets the block's own
`cache_control` field on the six variants that have one; the catch-all arm
of the source leaves every other variant unchanged. -/
def ContentBlock.clear_cache_control : ContentBlock → ContentBlock
  | .text t _ => .text t none
  | .image s _ => .image s none
  | .document s _ => .document s none
  | .toolUse i n inp sig _ => .toolUse i n inp sig none
  | .toolResult id c e _ => .toolResult id c e none
  | .thinking th sig _ => .thinking th sig none
  | b => b

/-- Model of `Message::clear_cache_control`. -/
def Message.clear_cache_control (m : Message) : Message :=
  match m.content with
  | .blocks content => { m with content := .blocks (content.map ContentBlock.clear_cache_control) }
  | _ => m

/-- Model of `clean_cache_control_from_messages`. -/
def clean_cache_control_from_messages (messages : List Message) : List Message :=
  messages.map Message.clear_cache_control

/-- The block's own typed `cache_control` field (`none` for the variants
that have no such field). -/
def ContentBlock.ownCacheControl : ContentBlock → Option CacheControlEphemeral
  | .text _ cc => cc
  | .image _ cc => cc
  | .document _ cc => cc
  | .toolUse _ _ _ _ cc => cc
  | .toolResult _ _ _ cc => cc
  | .thinking _ _ cc => cc
  | _ => none

mutual
/-- Whether a `"cache_control"` key occurs anywhere inside a JSON value. -/
def jsonHasCCDeep : Json → Bool
  | .obj kvs => jsonHasCCDeepKvs kvs
  | .arr xs => jsonHasCCDeepList xs
  | _ => false

/-- Entry-wise form of `jsonHasCCDeep`. -/
def jsonHasCCDeepKvs : JsObj → Bool
  | [] => false
  | (k, v) :: rest => k == "cache_control" || jsonHasCCDeep v || jsonHasCCDeepKvs rest

/-- Element-wise form of `jsonHasCCDeep`. -/
def jsonHasCCDeepList : List Json → Bool
  | [] => false
  | x :: xs => jsonHasCCDeep x || jsonHasCCDeepList xs
end

/-- Claim-side predicate of C4: the block carries a `cache_control` field
anywhere — its own typed field, a `cache_control` key nested inside
`tool_result.content`, or one inside the flattened raw data of the
`search_result`/`server_tool_use`/`web_search_tool_result` variants. -/
def ContentBlock.mentionsCacheControl : ContentBlock → Bool
  | .toolResult _ content _ cc => cc.isSome || jsonHasCCDeep content
  | .searchResult d => jsonHasCCDeep d
  | .serverToolUse d => jsonHasCCDeep d
  | .webSearchToolResult d => jsonHasCCDeep d
  | b => b.ownCacheControl.isSome

/-- The block list of a message (empty for plain-text content). -/
def Message.blocksOf (m : Message) : List ContentBlock :=
  match m.content with
  | .blocks bs => bs
  | _ => []

/-- Whether any block of any message carries a `cache_control` field in the
sense of `ContentBlock.mentionsCacheControl`. -/
def messagesMentionCacheControl (msgs : List Message) : Bool :=
  msgs.any (fun m => m.blocksOf.any ContentBlock.mentionsCacheControl)


/-! String helpers modelling the Rust `str` operations used by the source. -/

/-- Whether the first list is a prefix of the second (Rust `starts_with`). -/
def leadsWith : List Char → List Char → Bool
  | [], _ => true
  | _ :: _, [] => false
  | p :: ps, c :: cs => p == c && leadsWith ps cs

/-- Rust `s.starts_with(pat)`. -/
def strLeadsWith (s pat : String) : Bool := leadsWith pat.data s.data

/-- Helper of `splitOnce`: split at the first occurrence of `sep`. -/
def splitOnceAux (sep : Char) : List Char → Option (List Char × List Char)
  | [] => none
  | c :: cs =>
      if c == sep then some ([], cs)
      else (splitOnceAux sep cs).map (fun p => (c :: p.1, p.2))

/-- Rust `s.split_once(sep)`. -/
def splitOnce (sep : Char) (s : String) : Option (String × String) :=
  (splitOnceAux sep s.data).map (fun p => (String.mk p.1, String.mk p.2))

/-- Helper of `stripLead`: drop a literal pattern from the front. -/
def dropPat : List Char → List Char → Option (List Char)
  | [], s => some s
  | _ :: _, [] => none
  | p :: ps, c :: cs => if p == c then dropPat ps cs else none

/-- Rust `s.strip_prefix(pat)`. -/
def stripLead (pat s : String) : Option String :=
  (dropPat pat.data s.data).map String.mk

/-- Whether a `String` contains a literal pattern (Rust `s.contains(pat)`). -/
def listContainsPat (pat : List Char) : List Char → Bool
  | [] => pat.isEmpty
  | c :: cs => leadsWith pat (c :: cs) || listContainsPat pat cs

/-- Rust `s.contains(pat)` for a literal string pattern. -/
def strContainsPat (s pat : String) : Bool := listContainsPat pat.data s.data

/-! A JSON serializer and parser modelling `serde_json::to_string` and
`serde_json::from_str::<Value>`.  The parser is a plain recursive-descent
parser with a fuel bound (the nesting depth is at most the input length); it
covers the JSON forms the verified code produces and consumes — object,
array, string with the common escapes, integer, and the three literals.  -/

/-- Escaping of one character inside a JSON string literal. -/
def escapeJsonChar (c : Char) : List Char :=
  if c = '"' then ['\\', '"']
  else if c = '\\' then ['\\', '\\']
  else if c = '\n' then ['\\', 'n']
  else if c = '\t' then ['\\', 't']
  else if c = '\r' then ['\\', 'r']
  else [c]

/-- Serialization of a JSON string literal. -/
def encodeJsonStr (s : String) : String :=
  String.mk ('"' :: (s.data.flatMap escapeJsonChar ++ ['"']))

mutual
/-- Model of `serde_json::to_string` (compact encoding). -/
def encodeJson : Json → String
  | .null => "null"
  | .bool true => "true"
  | .bool false => "false"
  | .num n => toString n
  | .str s => encodeJsonStr s
  | .arr xs => "[" ++ encodeJsonArr xs ++ "]"
  | .obj kvs => "\x7b" ++ encodeJsonObj kvs ++ "\x7d"

/-- Comma-separated encoding of array elements. -/
def encodeJsonArr : List Json → String
  | [] => ""
  | [x] => encodeJson x
  | x :: xs => encodeJson x ++ "," ++ encodeJsonArr xs

/-- Comma-separated encoding of object entries. -/
def encodeJsonObj : JsObj → String
  | [] => ""
  | [(k, v)] => encodeJsonStr k ++ ":" ++ encodeJson v
  | (k, v) :: kvs => encodeJsonStr k ++ ":" ++ encodeJson v ++ "," ++ encodeJsonObj kvs
end

/-- Skip JSON whitespace. -/
def skipWs : List Char → List Char
  | ' ' :: cs => skipWs cs
  | '\t' :: cs => skipWs cs
  | '\n' :: cs => skipWs cs
  | '\r' :: cs => skipWs cs
  | cs => cs

/-- Parse the body of a JSON string literal (after the opening quote). -/
def parseJsonStrAux : List Char → Option (List Char × List Char)
  | [] => none
  | '"' :: rest => some ([], rest)
  | '\\' :: e :: rest =>
      let c :=
        if e = 'n' then '\n'
        else if e = 't' then '\t'
        else if e = 'r' then '\r'
        else e
      (parseJsonStrAux rest).map (fun p => (c :: p.1, p.2))
  | c :: rest => (parseJsonStrAux rest).map (fun p => (c :: p.1, p.2))

/-- Parse a run of digits into a natural number. -/
def parseDigits : Nat → List Char → Nat × List Char
  | acc, c :: cs =>
      if c.isDigit then parseDigits (acc * 10 + (c.toNat - 48)) cs
      else (acc, c :: cs)
  | acc, [] => (acc, [])

/-- Parse a JSON integer (a leading minus and digits; a fractional or
exponent tail makes the parse fail, as the verified code never feeds
non-integer numbers through this path). -/
def parseJsonNum : List Char → Option (Json × List Char)
  | '-' :: c :: cs =>
      if c.isDigit then
        let p := parseDigits 0 (c :: cs)
        match p.2 with
        | '.' :: _ => none
        | 'e' :: _ => none
        | 'E' :: _ => none
        | _ => some (.num (-(p.1 : Int)), p.2)
      else none
  | c :: cs =>
      if c.isDigit then
        let p := parseDigits 0 (c :: cs)
        match p.2 with
        | '.' :: _ => none
        | 'e' :: _ => none
        | 'E' :: _ => none
        | _ => some (.num (p.1 : Int), p.2)
      else none
  | [] => none

mutual
/-- Parse one JSON value. -/
def parseJsonVal : Nat → List Char → Option (Json × List Char)
  | 0, _ => none
  | fuel + 1, cs =>
      match skipWs cs with
      | 'n' :: 'u' :: 'l' :: 'l' :: rest => some (.null, rest)
      | 't' :: 'r' :: 'u' :: 'e' :: rest => some (.bool true, rest)
      | 'f' :: 'a' :: 'l' :: 's' :: 'e' :: rest => some (.bool false, rest)
      | '"' :: rest => (parseJsonStrAux rest).map (fun p => (.str (String.mk p.1), p.2))
      | '[' :: rest => (parseJsonArrElems fuel rest).map (fun p => (.arr p.1, p.2))
      | '\x7b' :: rest => (parseJsonObjEntries fuel rest).map (fun p => (.obj p.1, p.2))
      | rest => parseJsonNum rest

/-- Parse the elements of an array (after `[`). -/
def parseJsonArrElems : Nat → List Char → Option (List Json × List Char)
  | 0, _ => none
  | fuel + 1, cs =>
      match skipWs cs with
      | ']' :: rest => some ([], rest)
      | cs' =>
          (parseJsonVal fuel cs').bind (fun p =>
            (parseJsonArrRest fuel p.2).map (fun q => (p.1 :: q.1, q.2)))

/-- Parse the continuation of an array (after a value). -/
def parseJsonArrRest : Nat → List Char → Option (List Json × List Char)
  | 0, _ => none
  | fuel + 1, cs =>
      match skipWs cs with
      | ']' :: rest => some ([], rest)
      | ',' :: rest =>
          (parseJsonVal fuel rest).bind (fun p =>
            (parseJsonArrRest fuel p.2).map (fun q => (p.1 :: q.1, q.2)))
      | _ => none

/-- Parse the entries of an object (after the opening brace). -/
def parseJsonObjEntries : Nat → List Char → Option (JsObj × List Char)
  | 0, _ => none
  | fuel + 1, cs =>
      match skipWs cs with
      | '\x7d' :: rest => some ([], rest)
      | cs' =>
          (parseJsonEntry fuel cs').bind (fun p =>
            (parseJsonObjRest fuel p.2).map (fun q => (p.1 :: q.1, q.2)))

/-- Parse the continuation of an object (after an entry). -/
def parseJsonObjRest : Nat → List Char → Option (JsObj × List Char)
  | 0, _ => none
  | fuel + 1, cs =>
      match skipWs cs with
      | '\x7d' :: rest => some ([], rest)
      | ',' :: rest =>
          (parseJsonEntry fuel rest).bind (fun p =>
            (parseJsonObjRest fuel p.2).map (fun q => (p.1 :: q.1, q.2)))
      | _ => none

/-- Parse one `"key": value` entry. -/
def parseJsonEntry : Nat → List Char → Option ((String × Json) × List Char)
  | 0, _ => none
  | fuel + 1, cs =>
      match skipWs cs with
      | '"' :: rest =>
          (parseJsonStrAux rest).bind (fun p =>
            match skipWs p.2 with
            | ':' :: rest2 =>
                (parseJsonVal fuel rest2).map (fun q => ((String.mk p.1, q.1), q.2))
            | _ => none)
      | _ => none
end

/-- Model of `serde_json::from_str::<Value>`. -/
def parseJson (s : String) : Option Json :=
  match parseJsonVal (s.data.length + 1) s.data with
  | some (v, rest) => if (skipWs rest).isEmpty then some v else none
  | none => none

/-- Model of `serde_json::from_str(s).unwrap_or(json!(\x7b\x7d))`: parse with an
empty-object fallback. -/
def parseJsonOrEmptyObj (s : String) : Json :=
  (parseJson s).getD (.obj [])

/-! Embedding of `src/format/image_converter.rs` (the parts the request
pipeline uses). -/

/-- Model of `extract_image_from_data_uri`. -/
def extract_image_from_data_uri (url : String) : Option ImageSource :=
  if strLeadsWith url "data:" then
    match splitOnce ',' url with
    | some (metadata, base64_data) =>
        match stripLead "data:" metadata with
        | some rest =>
            let mtEnc :=
              match splitOnce ';' rest with
              | some (mt, enc) => (mt, enc)
              | none => (rest, "base64")
            some ⟨mtEnc.2, mtEnc.1, base64_data⟩
        | none => none
    | none => none
  else none

/-- Model of `oai_image_url_to_claude`. -/
def oai_image_url_to_claude (image_url : ImageUrl) : Option ContentBlock :=
  if strLeadsWith image_url.url "data:" then
    (extract_image_from_data_uri image_url.url).map (fun s => .image s none)
  else if strLeadsWith image_url.url "http://" || strLeadsWith image_url.url "https://" then
    some (.imageUrl image_url)
  else none

/-- Model of `process_image_blocks`. -/
def process_image_blocks (blocks : List ContentBlock) : List ContentBlock :=
  blocks.map (fun block =>
    match block with
    | .imageUrl image_url => (oai_image_url_to_claude image_url).getD (.imageUrl image_url)
    | other => other)


/-! Embedding of the citation extraction and conversion functions of
`src/format/web_search.rs`. -/

/-- Model of `extract_citations_from_tool_result`. -/
def extract_citations_from_tool_result (data : Json) : List Citation :=
  let fromContent :=
    match data.getArr "content" with
    | some content =>
        content.filterMap (fun item =>
          if item.getStr "type" == some "web_search_result" then
            match item.getStr "url", item.getStr "title" with
            | some url, some title =>
                some ⟨url, title,
                  ((((item.get "snippet").orElse
                      (fun _ => item.get "encrypted_content")).bind Json.asStr).getD ""),
                  none, none⟩
            | _, _ => none
          else none)
    | none => []
  let fromResults :=
    match data.getArr "results" with
    | some results =>
        results.filterMap (fun result =>
          match result.getStr "url", result.getStr "title" with
          | some url, some title =>
              some ⟨url, title, (result.getStr "snippet").getD "", none, none⟩
          | _, _ => none)
    | none => []
  fromContent ++ fromResults

/-- Model of `extract_citations_from_search_result`. -/
def extract_citations_from_search_result (data : Json) : List Citation :=
  match data.get "source" with
  | some source =>
      match source.getStr "url", source.getStr "title" with
      | some url, some title =>
          let content :=
            match data.getArr "content" with
            | some arr => String.intercalate "\n" (arr.filterMap (fun item => item.getStr "text"))
            | none => ""
          [⟨url, title, content, none, none⟩]
      | _, _ => []
  | none => []

/-- Model of `citations_to_annotations`. -/
def citations_to_annotations (citations : List Citation) : List Json :=
  citations.map (fun c =>
    .obj [("type", .str "url_citation"),
          ("url_citation", .obj
            [("url", .str c.url),
             ("title", .str c.title),
             ("content", .str c.snippet),
             ("start_index", .num (c.start_index.getD 0 : Nat)),
             ("end_index", .num (c.end_index.getD 0 : Nat))])])

/-- Model of `annotations_to_web_search_content`; a missing field of the
`url_citation` object serializes as JSON `null` under the `json!` macro. -/
def annotations_to_web_search_content (annotations : List Json) : List Json :=
  annotations.filterMap (fun ann =>
    if ann.getStr "type" == some "url_citation" then
      (ann.get "url_citation").map (fun citation =>
        .obj [("type", .str "web_search_result"),
              ("url", (citation.get "url").getD .null),
              ("title", (citation.get "title").getD .null),
              ("snippet", (citation.get "content").getD .null)])
    else none)

/-! Serialization of the canonical data model back to JSON values, as the
serde `Serialize` derives produce it (variant tag `type` first, fields in
declaration order, `None` fields skipped). -/

/-- One optional serialized field. -/
def optField (k : String) : Option Json → JsObj
  | some v => [(k, v)]
  | none => []

/-- Serialization of `CacheControlEphemeral`. -/
def ccToJson (cc : CacheControlEphemeral) : Json :=
  .obj ([("type", .str "ephemeral")] ++ optField "ttl" (cc.ttl.map .str))

/-- Serialization of `ImageSource`. -/
def imageSourceToJson (s : ImageSource) : Json :=
  .obj [("type", .str s.type_), ("media_type", .str s.media_type), ("data", .str s.data)]

/-- Serialization of `DocumentSource`. -/
def documentSourceToJson (s : DocumentSource) : Json :=
  .obj ([("type", .str s.type_)] ++ optField "media_type" (s.media_type.map .str) ++
    optField "data" (s.data.map .str) ++ optField "url" (s.url.map .str))

/-- Serialization of a `ContentBlock` (the `json!(blocks)` path). -/
def contentBlockToJson : ContentBlock → Json
  | .text t cc =>
      .obj ([("type", .str "text"), ("text", .str t)] ++
        optField "cache_control" (cc.map ccToJson))
  | .image s cc =>
      .obj ([("type", .str "image"), ("source", imageSourceToJson s)] ++
        optField "cache_control" (cc.map ccToJson))
  | .imageUrl u =>
      .obj [("type", .str "image_url"), ("image_url", .obj [("url", .str u.url)])]
  | .document s cc =>
      .obj ([("type", .str "document"), ("source", documentSourceToJson s)] ++
        optField "cache_control" (cc.map ccToJson))
  | .toolUse id name input sig cc =>
      .obj ([("type", .str "tool_use"), ("id", .str id), ("name", .str name),
             ("input", input)] ++ optField "signature" (sig.map .str) ++
        optField "cache_control" (cc.map ccToJson))
  | .toolResult id content isErr cc =>
      .obj ([("type", .str "tool_result"), ("tool_use_id", .str id),
             ("content", content)] ++ optField "is_error" (isErr.map .bool) ++
        optField "cache_control" (cc.map ccToJson))
  | .thinking th sig cc =>
      .obj ([("type", .str "thinking"), ("thinking", .str th)] ++
        optField "signature" (sig.map .str) ++
        optField "cache_control" (cc.map ccToJson))
  | .redactedThinking d =>
      .obj [("type", .str "redacted_thinking"), ("data", .str d)]
  | .searchResult d => .obj (("type", .str "search_result") :: d.asObj.getD [])
  | .serverToolUse d => .obj (("type", .str "server_tool_use") :: d.asObj.getD [])
  | .webSearchToolResult d =>
      .obj (("type", .str "web_search_tool_result") :: d.asObj.getD [])

/-! Embedding of `src/types/oai.rs` (message conversion). -/

/-- Model of `OaiRole`. -/
inductive OaiRole where
  | system
  | user
  | assistant
  | tool
  deriving DecidableEq

/-- Model of `From<OaiRole> for Role`: tool results become user messages. -/
def OaiRole.toRole : OaiRole → Role
  | .system => .system
  | .user => .user
  | .assistant => .assistant
  | .tool => .user

/-- Model of `OaiMessageContent`. -/
inductive OaiMessageContent where
  | text (s : String)
  | blocks (bs : List ContentBlock)
  | null

/-- Model of `OaiToolCallFunction`. -/
structure OaiToolCallFunction where
  name : String
  arguments : String

/-- Model of `OaiToolCall`. -/
structure OaiToolCall where
  id : String
  type_ : String
  function : OaiToolCallFunction

/-- Model of `OaiMessage`. -/
structure OaiMessage where
  role : OaiRole
  content : OaiMessageContent
  tool_call_id : Option String
  tool_calls : Option (List OaiToolCall)
  annotations : Option (List Json)

/-- Model of `convert_oai_message`. -/
def convert_oai_message (msg : OaiMessage) : Message :=
  match msg.role, msg.tool_calls with
  | .tool, _ =>
      let tool_use_id := msg.tool_call_id.getD ""
      let content_value : Json :=
        match msg.content with
        | .text text => .str text
        | .blocks blocks => .arr (blocks.map contentBlockToJson)
        | .null => .str ""
      let remapped_content :=
        if content_value.isObj then remap_tool_result_args tool_use_id content_value
        else content_value
      ⟨.user, .blocks [.toolResult tool_use_id remapped_content none none]⟩
  | .assistant, some tool_calls =>
      let blocks₀ : List ContentBlock :=
        match msg.content with
        | .text text => if text.isEmpty then [] else [.text text none]
        | .blocks content => content
        | .null => []
      let blocks := blocks₀ ++ tool_calls.map (fun tc =>
        .toolUse tc.id tc.function.name
          (remap_oai_to_claude_args tc.function.name (parseJsonOrEmptyObj tc.function.arguments))
          none none)
      ⟨.assistant, .blocks blocks⟩
  | role, _ =>
      let blocks₀ : List ContentBlock :=
        match msg.content with
        | .blocks content =>
            content.map (fun block =>
              match block with
              | .imageUrl image_url => (oai_image_url_to_claude image_url).getD block
              | _ => block)
        | .text text => if text.isEmpty then [] else [.text text none]
        | .null => []
      let blocks :=
        match msg.annotations with
        | some annotations =>
            if annotations.isEmpty then blocks₀
            else
              let web_search_content := annotations_to_web_search_content annotations
              if web_search_content.isEmpty then blocks₀
              else blocks₀ ++ [.toolResult "web_search" (.arr web_search_content) none none]
        | none => blocks₀
      let content : MessageContent :=
        if blocks.isEmpty then .text "" else .blocks blocks
      ⟨role.toRole, content⟩


/-! Embedding of the remaining `schema_cleaner.rs` functions:
`move_constraints_to_description`, `ensure_valid_schema`, `expand_refs`. -/

/-- Model of `Value::as_u64` on this integer-numbered JSON model. -/
def jsonAsU64 : Json → Option Nat
  | .num n => if 0 ≤ n then some n.toNat else none
  | _ => none

/-- Model of `Value::as_f64`; the model's numbers are integers and an
integral `f64` displays without a decimal point in Rust, so the note text
below matches the source's `format!` output on every representable value. -/
def jsonAsF64 : Json → Option Int
  | .num n => some n
  | _ => none

/-- The constraint notes collected by `move_constraints_recursive`, in source
order. -/
def constraintNotes (kvs : JsObj) : List String :=
  (match (jlookup "minLength" kvs).bind jsonAsU64 with
   | some n => ["Minimum length: " ++ toString n] | none => []) ++
  (match (jlookup "maxLength" kvs).bind jsonAsU64 with
   | some n => ["Maximum length: " ++ toString n] | none => []) ++
  (match (jlookup "pattern" kvs).bind Json.asStr with
   | some p => ["Pattern: " ++ p] | none => []) ++
  (match (jlookup "minimum" kvs).bind jsonAsF64 with
   | some n => ["Minimum: " ++ toString n] | none => []) ++
  (match (jlookup "maximum" kvs).bind jsonAsF64 with
   | some n => ["Maximum: " ++ toString n] | none => []) ++
  (match (jlookup "minItems" kvs).bind jsonAsU64 with
   | some n => ["Minimum items: " ++ toString n] | none => []) ++
  (match (jlookup "maxItems" kvs).bind jsonAsU64 with
   | some n => ["Maximum items: " ++ toString n] | none => [])

/-- The description rewrite of `move_constraints_recursive`: appends the
collected notes to the (possibly missing) `description`. -/
def applyDescStep (kvs : JsObj) : JsObj :=
  match constraintNotes kvs with
  | [] => kvs
  | notes =>
      let existing := ((jlookup "description" kvs).bind Json.asStr).getD ""
      let newDesc :=
        if existing.isEmpty then String.intercalate ". " notes
        else existing ++ ". Constraints: " ++ String.intercalate ", " notes
      insertKey "description" (.str newDesc) kvs

mutual
/-- Model of `move_constraints_to_description` (and its recursive worker).
The source writes the description first and then recurses into
`properties.*` and `items`; the two steps touch disjoint entries (the
description rewrite reads only constraint keys and writes `description`,
the recursion rewrites only the `properties`/`items` values), so the model
recurses entry-wise first and applies the description step to the result. -/
def move_constraints_to_description : Json → Json
  | .obj kvs => .obj (applyDescStep (moveEntries kvs))
  | j => j

/-- Entry-wise recursion of `move_constraints_recursive` into
`properties.*` and `items`. -/
def moveEntries : JsObj → JsObj
  | [] => []
  | (k, v) :: rest =>
      if k == "properties" then ("properties", movePropsVal v) :: moveEntries rest
      else if k == "items" then ("items", move_constraints_to_description v) :: moveEntries rest
      else (k, v) :: moveEntries rest

/-- The `properties` recursion: each property value is processed when the
`properties` value is an object. -/
def movePropsVal : Json → Json
  | .obj ps => .obj (moveVals ps)
  | v => v

/-- Process every value of a property map. -/
def moveVals : JsObj → JsObj
  | [] => []
  | (k, v) :: rest => (k, move_constraints_to_description v) :: moveVals rest
end

/-- The placeholder `properties` map inserted by `ensure_valid_schema`. -/
def placeholderProperties : Json :=
  .obj [("reason", .obj [("type", .str "string"),
                         ("description", .str "Reason for calling this tool")])]

/-- Model of `create_placeholder_schema`. -/
def create_placeholder_schema : Json :=
  .obj [("type", .str "object"),
        ("properties", placeholderProperties),
        ("required", .arr [.str "reason"])]

/-- Model of `ensure_valid_schema`. -/
def ensure_valid_schema (schema : Json) : Json :=
  match schema with
  | .obj kvs =>
      let kvs1 := if hasKey "type" kvs then kvs else insertKey "type" (.str "object") kvs
      if (jlookup "type" kvs1).bind Json.asStr == some "object" then
        let hasProps :=
          match (jlookup "properties" kvs1).bind Json.asObj with
          | some o => !o.isEmpty
          | none => false
        if hasProps then .obj kvs1
        else .obj (insertKey "required" (.arr [.str "reason"])
          (insertKey "properties" placeholderProperties kvs1))
      else .obj kvs1
  | _ => create_placeholder_schema

/-- Split a character list at every occurrence of `sep` (Rust `str::split`). -/
def splitChar (sep : Char) : List Char → List (List Char)
  | [] => [[]]
  | c :: cs =>
      let r := splitChar sep cs
      if c == sep then [] :: r
      else
        match r with
        | h :: t => (c :: h) :: t
        | [] => [[c]]

/-- The referent of a `$ref` value: a path `#/.../NAME` of at least three
components resolves `NAME` against the collected definitions. -/
def refTarget (definitions : Json) (refVal : Json) : Option Json :=
  match refVal.asStr with
  | some refStr =>
      let parts := (splitChar '/' refStr.data).map String.mk
      if 3 ≤ parts.length ∧ parts.head? = some "#" then
        (parts.getLast?).bind (fun defName => definitions.get defName)
      else none
  | none => none

/-- Merge the fields of a resolved definition into the node without
overwriting fields already present (insertion appends, as in the source). -/
def mergeNoOverwrite (defn : Json) (kvs : JsObj) : JsObj :=
  match defn with
  | .obj dkvs => dkvs.foldl (fun m kv => if hasKey kv.1 m then m else m ++ [kv]) kvs
  | _ => kvs

/-- Replace the value of the first binding of `k` (the `get_mut` pattern). -/
def modifyFirstVal (k : String) (f : Json → Json) : JsObj → JsObj
  | [] => []
  | (k', v) :: rest =>
      if k' == k then (k', f v) :: rest else (k', v) :: modifyFirstVal k f rest

/-- Fuel-bounded model of `expand_refs_recursive`.  The Rust function
recurses into an object it has just merged definition fields into, which is
not structurally decreasing (a self-referential definition makes the Rust
function overflow its stack); the model bounds the recursion depth with
fuel, which `expand_refs` below picks larger than any nesting depth the
expansion of a non-self-referential schema can reach. -/
def expandRefsGo : Nat → Json → Json → Json
  | 0, schema, _ => schema
  | fuel + 1, schema, definitions =>
      match schema with
      | .obj kvs =>
          let kvs1 :=
            match jlookup "$ref" kvs with
            | some refVal =>
                let base := eraseKey "$ref" kvs
                match refTarget definitions refVal with
                | some defn => mergeNoOverwrite defn base
                | none => base
            | none => kvs
          let armF : Json → Json := fun v =>
            match v with
            | .arr xs => .arr (xs.map (fun x => expandRefsGo fuel x definitions))
            | _ => v
          let s1 := modifyFirstVal "properties" (fun v =>
            match v with
            | .obj ps => .obj (ps.map (fun kv => (kv.1, expandRefsGo fuel kv.2 definitions)))
            | _ => v) kvs1
          let s2 := modifyFirstVal "items" (fun v => expandRefsGo fuel v definitions) s1
          let s3 := modifyFirstVal "anyOf" armF s2
          let s4 := modifyFirstVal "oneOf" armF s3
          .obj (modifyFirstVal "allOf" armF s4)
      | j => j

mutual
/-- Node count of a JSON value, a fuel bound for `expand_refs`. -/
def jsonSize : Json → Nat
  | .obj kvs => 1 + jsonSizeKvs kvs
  | .arr xs => 1 + jsonSizeList xs
  | _ => 1

/-- Entry-wise size. -/
def jsonSizeKvs : JsObj → Nat
  | [] => 0
  | (_, v) :: rest => 1 + jsonSize v + jsonSizeKvs rest

/-- Element-wise size. -/
def jsonSizeList : List Json → Nat
  | [] => 0
  | x :: xs => 1 + jsonSize x + jsonSizeList xs
end

/-- Model of `expand_refs`: collect `$defs`/`definitions`, expand every
reference, and drop the definition maps from the result. -/
def expand_refs (schema : Json) : Json :=
  let definitions := ((schema.get "$defs").orElse (fun _ => schema.get "definitions")).getD (.obj [])
  let result := expandRefsGo (jsonSize schema + jsonSize definitions + 1) schema definitions
  match result with
  | .obj kvs => .obj (eraseKey "definitions" (eraseKey "$defs" kvs))
  | j => j

/-! Embedding of the tool conversion of `src/types/oai.rs`
(`From<OaiTool> for Tool` and the tools mapping of
`From<OaiCreateMessageParams> for ClaudeCreateMessageParams`,
lines 559-580). -/

/-- Model of `CustomToolType`. -/
inductive CustomToolType where
  | custom
  deriving DecidableEq

/-- Model of `CustomTool`. -/
structure CustomTool where
  name : String
  description : Option String
  input_schema : Json
  cache_control : Option CacheControlEphemeral
  type_ : Option CustomToolType

/-- Model of `KnownTool`; the built-in tool shapes are constructed with all
optional fields `None` and empty `extra` maps, so only the variant matters
here. -/
inductive KnownTool where
  | webSearch20250305
  | bash20250124
  | textEditor20250124
  | textEditor20250728
  deriving DecidableEq

/-- Model of `Tool`. -/
inductive Tool where
  | custom (c : CustomTool)
  | known (k : KnownTool)
  | raw (v : Json)

/-- Model of `OaiToolFunction`. -/
structure OaiToolFunction where
  name : String
  description : Option String
  parameters : Option Json

/-- Model of `OaiTool`. -/
inductive OaiTool where
  | function (f : OaiToolFunction)
  | custom (c : CustomTool)
  | other

/-- Model of `From<OaiTool> for Tool`: the four well-known function names
map to built-in tool shapes, every other function becomes a custom tool with
the `\x7b"type":"object","properties":\x7b\x7d\x7d` default schema, and
`OaiTool::Other` lowers to the raw empty object. -/
def oaiToolToTool : OaiTool → Tool
  | .function f =>
      if f.name == "web_search" then .known .webSearch20250305
      else if f.name == "bash" then .known .bash20250124
      else if f.name == "str_replace_editor" then .known .textEditor20250124
      else if f.name == "str_replace_based_edit_tool" then .known .textEditor20250728
      else .custom ⟨f.name, f.description,
        f.parameters.getD (.obj [("type", .str "object"), ("properties", .obj [])]),
        none, some .custom⟩
  | .custom c => .custom { c with type_ := some .custom }
  | .other => .raw (.obj [])

/-- Model of the `filter_map` closure over tools in
`From<OaiCreateMessageParams> for ClaudeCreateMessageParams`: custom tools
get `move_constraints_to_description`, then `clean_json_schema`, then
`ensure_valid_schema` applied to their `input_schema` (no `expand_refs` —
the source never calls it), empty raw tools are dropped, and the rest pass
through. -/
def convert_oai_tool (oai_tool : OaiTool) : Option Tool :=
  match oaiToolToTool oai_tool with
  | .custom custom =>
      let s1 := move_constraints_to_description custom.input_schema
      let s2 := clean_json_schema s1
      let s3 := ensure_valid_schema s2
      some (.custom { custom with input_schema := s3, type_ := some .custom })
  | .raw v => if (v.asObj.map (fun o => o.isEmpty)).getD true then none else some (.raw v)
  | other => some other

/-- The tools field mapping of `From<OaiCreateMessageParams>`. -/
def convert_oai_tools (tools : Option (List OaiTool)) : Option (List Tool) :=
  tools.map (fun ts => ts.filterMap convert_oai_tool)

/-- The schema pipeline the code applies to a custom tool schema. -/
def code_tool_schema_pipeline (schema : Json) : Json :=
  ensure_valid_schema (clean_json_schema (move_constraints_to_description schema))

/-- The schema pipeline claim C2 asserts (modelled from the spec's words):
`expand_refs` first, then the three cleaning steps. -/
def spec_tool_schema_pipeline (schema : Json) : Json :=
  ensure_valid_schema (clean_json_schema (move_constraints_to_description (expand_refs schema)))


/-! Embedding of the system-prompt handling of
`ClaudeCodePreprocess::from_request` (`src/middleware/claude/request.rs`,
lines 351-429): the Claude-Code-marker detection, the prelude injection and
the cache-system extraction that computes `system_prompt_hash`.  The steps
before this slice (top_p clearing, the test-message probe) do not touch
`body.system`. -/

/-- The error kinds this slice can surface. -/
inductive ClewdrError where
  | badRequest (msg : String)
  deriving DecidableEq

/-- The fixed `PRELUDE_TEXT` of the source. -/
def PRELUDE_TEXT : String :=
  "You are an agent for Claude Code, Anthropic's official CLI for Claude. Given the user's message, you should use the tools available to complete the task. Do what has been asked; nothing more, nothing less. When you complete the task simply respond with a detailed writeup."

/-- Whether the existing system prompt already contains the token
`Claude Code` (string: substring test; array: any block whose `text` field
contains it). -/
def hasClaudeCodeSystem : Option Json → Bool
  | some (.str s) => strContainsPat s "Claude Code"
  | some (.arr arr) =>
      arr.any (fun v =>
        (((v.get "text").bind Json.asStr).map
          (fun s => strContainsPat s "Claude Code")).getD false)
  | _ => false

/-- The prelude injection: when the marker is missing, prepend the prelude
block (or the configured `custom_system` override), converting a string
system prompt into a two-element array. -/
def injectCCPrelude (custom_system : Option String) (system : Option Json) : Option Json :=
  if hasClaudeCodeSystem system then system
  else
    let prelude_blk : ContentBlock := .text (custom_system.getD PRELUDE_TEXT) none
    match system with
    | some (.str text) =>
        some (.arr [contentBlockToJson prelude_blk, contentBlockToJson (.text text none)])
    | some (.arr a) => some (.arr (contentBlockToJson prelude_blk :: a))
    | _ => some (.arr [contentBlockToJson prelude_blk])

/-- The system-prompt slice of `ClaudeCodePreprocess::from_request`: inject
the prelude when needed, then require the system prompt to be a non-missing
array and collect the blocks carrying a `cache_control` object (the hash
input); returns the processed system value and whether a
`system_prompt_hash` is computed. -/
def claude_code_system_preprocess (custom_system : Option String)
    (system : Option Json) : Except ClewdrError (Json × Bool) :=
  let system1 := injectCCPrelude custom_system system
  match system1 with
  | none => .error (.badRequest "Empty system prompt")
  | some v =>
      match v.asArr with
      | none => .error (.badRequest "System prompt is not an array")
      | some arr =>
          let cache_systems := arr.filter (fun s => ((s.get "cache_control").bind Json.asObj).isSome)
          .ok (v, !cache_systems.isEmpty)


/-! Embedding of the stream transducer of `src/middleware/claude/claude2oai.rs`
(`transform_stream`).  The per-stream state — the tool-call buffer, the
web-search buffer and the emit counter, all `Mutex`-wrapped maps in the
source — and the global signature slot are passed explicitly; each parsed
upstream event maps to the list of OpenAI frames emitted for it. -/

/-- Model of the accumulator `ToolCallState`. -/
structure ToolCallState where
  id : String
  name : String
  arguments : String

/-- Model of the accumulator `WebSearchState`. -/
structure WebSearchState where
  citations : List Citation
  tool_use_id : String

/-- Model of `ToolCallFunction` (of `claude2oai.rs`). -/
structure ToolCallFunction where
  name : String
  arguments : String

/-- Model of `ToolCallDelta`. -/
structure ToolCallDelta where
  index : Nat
  id : String
  type_ : String
  function : ToolCallFunction

/-- Model of `EventContent`, the payload of one emitted OpenAI frame
`\x7bchoices:[\x7bdelta: ...\x7d]\x7d` (the
`ContentWithAnnotations` variant is never produced by `transform_stream`
and is omitted). -/
inductive EventContent where
  | content (content : String)
  | reasoning (reasoning_content : String)
  | toolCalls (tool_calls : List ToolCallDelta)
  | annotations (annotations : List Json)

/-- Model of `ContentBlockDelta` (of `types/claude.rs`). -/
inductive ContentBlockDelta where
  | textDelta (text : String)
  | inputJsonDelta (partial_json : String)
  | thinkingDelta (thinking : String)
  | signatureDelta (signature : String)

/-- Model of `StreamEvent` (of `types/claude.rs`); the payloads of the
variants the transducer ignores are dropped. -/
inductive StreamEvent where
  | messageStart
  | contentBlockStart (index : Nat) (content_block : ContentBlock)
  | contentBlockDelta (index : Nat) (delta : ContentBlockDelta)
  | contentBlockStop (index : Nat)
  | messageDelta
  | messageStop
  | ping
  | error

/-- `HashMap::get` on the index-keyed buffers. -/
def bufLookup {α : Type} (i : Nat) : List (Nat × α) → Option α
  | [] => none
  | (j, v) :: rest => if j == i then some v else bufLookup i rest

/-- `HashMap::insert` on the index-keyed buffers. -/
def bufInsert {α : Type} (i : Nat) (v : α) : List (Nat × α) → List (Nat × α)
  | [] => [(i, v)]
  | (j, w) :: rest => if j == i then (i, v) :: rest else (j, w) :: bufInsert i v rest

/-- `HashMap::remove` on the index-keyed buffers. -/
def bufRemove {α : Type} (i : Nat) : List (Nat × α) → List (Nat × α)
  | [] => []
  | (j, w) :: rest => if j == i then bufRemove i rest else (j, w) :: bufRemove i rest

/-- The per-stream state of `transform_stream` plus the global slot the
`signature_delta` handler writes. -/
structure TransducerState where
  tool_call_buffer : List (Nat × ToolCallState)
  web_search_buffer : List (Nat × WebSearchState)
  tool_call_index : Nat
  global_sig : Option String

/-- The initial per-stream state (empty buffers, counter zero). -/
def initTransducerState (sig : Option String) : TransducerState :=
  ⟨[], [], 0, sig⟩

/-- Model of `build_tool_call_event`: JSON-parse the accumulated arguments
(falling back to the empty object), remap them per tool, and re-encode
(`serde_json::to_string` on a `Value` cannot fail, so its `unwrap_or`
fallback is unreachable). -/
def build_tool_call_event (state : ToolCallState) (index : Nat) : EventContent :=
  let args_value := parseJsonOrEmptyObj state.arguments
  let remapped := remap_function_call_args state.name args_value
  .toolCalls [⟨index, state.id, "function", ⟨state.name, encodeJson remapped⟩⟩]

/-- Model of `build_annotations_event`. -/
def build_annotations_event (citations : List Citation) : EventContent :=
  .annotations (citations_to_annotations citations)

/-- One step of `transform_stream`: the handler of one parsed upstream
event, mapping the state to the new state and the frames emitted. -/
def transform_step (st : TransducerState) (ev : StreamEvent) :
    TransducerState × List EventContent :=
  match ev with
  | .contentBlockStart index content_block =>
      match content_block with
      | .toolUse id name _ _ _ =>
          ({ st with tool_call_buffer := bufInsert index ⟨id, name, ""⟩ st.tool_call_buffer }, [])
      | .webSearchToolResult data =>
          let tool_use_id := ((data.get "tool_use_id").bind Json.asStr).getD ""
          let ws : WebSearchState := ⟨extract_citations_from_tool_result data, tool_use_id⟩
          ({ st with web_search_buffer := bufInsert index ws st.web_search_buffer }, [])
      | .searchResult data =>
          let ws : WebSearchState := ⟨extract_citations_from_search_result data, ""⟩
          ({ st with web_search_buffer := bufInsert index ws st.web_search_buffer }, [])
      | _ => (st, [])
  | .contentBlockDelta index delta =>
      match delta with
      | .textDelta text => (st, [.content text])
      | .thinkingDelta thinking => (st, [.reasoning thinking])
      | .inputJsonDelta partial_json =>
          match bufLookup index st.tool_call_buffer with
          | some s =>
              let s2 : ToolCallState := ⟨s.id, s.name, s.arguments ++ partial_json⟩
              ({ st with tool_call_buffer := bufInsert index s2 st.tool_call_buffer }, [])
          | none => (st, [])
      | .signatureDelta signature =>
          ({ st with global_sig := store_thought_signature signature st.global_sig }, [])
  | .contentBlockStop index =>
      match bufLookup index st.tool_call_buffer with
      | some s =>
          ({ st with tool_call_buffer := bufRemove index st.tool_call_buffer,
                     tool_call_index := st.tool_call_index + 1 },
           [build_tool_call_event s st.tool_call_index])
      | none =>
          match bufLookup index st.web_search_buffer with
          | some ws =>
              ({ st with web_search_buffer := bufRemove index st.web_search_buffer },
               if ws.citations.isEmpty then [] else [build_annotations_event ws.citations])
          | none => (st, [])
  | _ => (st, [])

/-- The transducer run over a whole event list, concatenating the emitted
frames in order. -/
def transform_run (st : TransducerState) : List StreamEvent → TransducerState × List EventContent
  | [] => (st, [])
  | ev :: evs =>
      let p := transform_step st ev
      let q := transform_run p.1 evs
      (q.1, p.2 ++ q.2)

/-- Whether a frame is a tool-call frame. -/
def EventContent.isToolCallFrame : EventContent → Bool
  | .toolCalls _ => true
  | _ => false

/-- The `tool_calls[*].index` values of one frame. -/
def EventContent.toolCallIdxs : EventContent → List Nat
  | .toolCalls tcs => tcs.map (fun tc => tc.index)
  | _ => []

/-- The `tool_calls[*].index` values of an emitted frame list, in order. -/
def outToolCallIdxs (out : List EventContent) : List Nat :=
  out.flatMap EventContent.toolCallIdxs

/-! ## Theorems -/

/-! Basic association-list lemmas used throughout. -/

theorem jlookup_insertKey_self (k : String) (v : Json) :
    ∀ m : JsObj, jlookup k (insertKey k v m) = some v := by
  intro m
  induction m with
  | nil => simp [insertKey, jlookup]
  | cons kv rest ih =>
      obtain ⟨k', v'⟩ := kv
      by_cases h : k' = k
      · simp [insertKey, jlookup, h]
      · simp [insertKey, jlookup, h, ih]

theorem jlookup_insertKey_other {k k' : String} (hne : k' ≠ k) (v : Json) :
    ∀ m : JsObj, jlookup k' (insertKey k v m) = jlookup k' m := by
  intro m
  induction m with
  | nil => simp [insertKey, jlookup, Ne.symm hne]
  | cons kv rest ih =>
      obtain ⟨k₀, v₀⟩ := kv
      by_cases h : k₀ = k
      · subst h
        simp [insertKey, jlookup, Ne.symm hne]
      · simp [insertKey, jlookup, h, ih]

theorem jlookup_eraseKey_self (k : String) :
    ∀ m : JsObj, jlookup k (eraseKey k m) = none := by
  intro m
  induction m with
  | nil => simp [eraseKey, jlookup]
  | cons kv rest ih =>
      obtain ⟨k₀, v₀⟩ := kv
      by_cases h : k₀ = k
      · simp [eraseKey, h, ih]
      · simp [eraseKey, jlookup, h, ih]

theorem jlookup_eraseKey_other {k k' : String} (hne : k' ≠ k) :
    ∀ m : JsObj, jlookup k' (eraseKey k m) = jlookup k' m := by
  intro m
  induction m with
  | nil => simp [eraseKey, jlookup]
  | cons kv rest ih =>
      obtain ⟨k₀, v₀⟩ := kv
      by_cases h : k₀ = k
      · subst h
        simp [eraseKey, jlookup, Ne.symm hne, ih]
      · simp [eraseKey, jlookup, h, ih]

theorem insertKey_of_jlookup_eq {k : String} {v : Json} :
    ∀ {m : JsObj}, jlookup k m = some v → insertKey k v m = m := by
  intro m
  induction m with
  | nil => simp [jlookup]
  | cons kv rest ih =>
      obtain ⟨k₀, v₀⟩ := kv
      by_cases h : k₀ = k
      · subst h
        simp [jlookup, insertKey]
        intro hv
        exact hv.symm
      · simp [jlookup, insertKey, h]
        exact ih

theorem hasKey_eq_false_iff (k : String) :
    ∀ m : JsObj, hasKey k m = false ↔ jlookup k m = none := by
  intro m
  induction m with
  | nil => simp [hasKey, jlookup]
  | cons kv rest ih =>
      obtain ⟨k₀, v₀⟩ := kv
      by_cases h : k₀ = k
      · simp [hasKey, jlookup, h]
      · simp [hasKey, jlookup, h, ih]

/-- Sanity: `cleanTypeWrap` is `clean_json_schema` on the wrapper object. -/
theorem cleanTypeWrap_eq (t : Json) :
    cleanTypeWrap t = clean_json_schema (.obj [("type", t)]) := by
  match t with
  | .null | .bool _ | .num _ | .str _ | .obj _ =>
      rfl
  | .arr ts =>
      simp only [clean_json_schema, cleanEntries, genTypeItems, cleanTypeWrap]
      simp only [applyTypeCoercion, jlookup]
      by_cases hn : ts.any isNullTy <;>
        rcases hfil : ts.filter (fun t' => !isNullTy t') with _ | ⟨t', _ | ⟨t'', rest⟩⟩ <;>
          simp [hn, hfil, insertKey, eraseKey, UNSUPPORTED_KEYWORDS, cleanEntries]

/-- Sanity: the source's `test_clean_removes_unsupported_keywords`. -/
example :
    clean_json_schema (.obj
      [("type", .str "object"),
       ("$schema", .str "http://json-schema.org/draft-07/schema#"),
       ("$id", .str "test"),
       ("additionalProperties", .bool false),
       ("properties", .obj [("name", .obj [("type", .str "string")])])]) =
    .obj [("type", .str "object"),
          ("properties", .obj [("name", .obj [("type", .str "string")])])] := by
  rfl

/-- Sanity: the source's `test_clean_handles_type_arrays`. -/
example :
    clean_json_schema (.obj [("type", .arr [.str "string", .str "null"])]) =
    .obj [("type", .str "string"), ("nullable", .bool true)] := by
  rfl

/-- Sanity: the source's `test_clean_handles_multiple_types`. -/
example :
    clean_json_schema (.obj [("type", .arr [.str "string", .str "number"])]) =
    .obj [("anyOf", .arr [.obj [("type", .str "string")],
                          .obj [("type", .str "number")]])] := by
  rfl

/-- Sanity: the source's `test_recursive_cleaning`. -/
example :
    clean_json_schema (.obj
      [("type", .str "object"),
       ("properties", .obj
         [("inner", .obj
           [("type", .str "object"),
            ("$comment", .str "should be removed"),
            ("properties", .obj
              [("deep", .obj [("type", .arr [.str "string", .str "null"])])])])])]) =
    .obj [("type", .str "object"),
          ("properties", .obj
            [("inner", .obj
              [("type", .str "object"),
               ("properties", .obj
                 [("deep", .obj [("type", .str "string"),
                                 ("nullable", .bool true)])])])])] := by
  rfl

/-- C1, counterexample.  The claim `clean_json_schema (clean_json_schema s) =
clean_json_schema s` fails at `s = {type: ["string","number"]}`: the first
pass coerces the multi-type array into an `anyOf`, and the second pass
deletes that `anyOf` because `anyOf` is itself an unsupported keyword. -/
theorem C1_counterexample :
    clean_json_schema (clean_json_schema
        (.obj [("type", .arr [.str "string", .str "number"])])) ≠
      clean_json_schema (.obj [("type", .arr [.str "string", .str "number"])]) ∧
    clean_json_schema (.obj [("type", .arr [.str "string", .str "number"])]) =
      .obj [("anyOf", .arr [.obj [("type", .str "string")],
                            .obj [("type", .str "number")]])] ∧
    clean_json_schema (clean_json_schema
        (.obj [("type", .arr [.str "string", .str "number"])])) = .obj [] := by
  refine ⟨?_, rfl, rfl⟩
  intro h
  have h' : Json.obj [] =
      Json.obj [("anyOf", .arr [.obj [("type", .str "string")],
                                .obj [("type", .str "number")]])] := h
  simp at h'

theorem jlookup_type_cleanEntries : ∀ m : JsObj,
    jlookup "type" (cleanEntries m) = jlookup "type" m := by
  intro m
  induction m with
  | nil => rfl
  | cons kv rest ih =>
      obtain ⟨k, v⟩ := kv
      by_cases hu : k ∈ UNSUPPORTED_KEYWORDS
      · have hk : k ≠ "type" := by
          rintro rfl
          simp [UNSUPPORTED_KEYWORDS] at hu
        simp [cleanEntries, hu, jlookup, hk, ih]
      · by_cases hp : k = "properties"
        · subst hp
          simp [cleanEntries, hu, jlookup, ih]
        · by_cases hi : k = "items"
          · subst hi
            simp [cleanEntries, hu, hp, jlookup, ih]
          · by_cases ht : k = "type"
            · subst ht
              simp [cleanEntries, hu, hp, hi, jlookup]
            · simp [cleanEntries, hu, hp, hi, jlookup, ht, ih]

theorem cleanEntries_insertKey_comm {k : String} (v : Json)
    (hu : k ∉ UNSUPPORTED_KEYWORDS)
    (hp : k ≠ "properties") (hi : k ≠ "items") :
    ∀ m : JsObj, cleanEntries (insertKey k v m) = insertKey k v (cleanEntries m) := by
  intro m
  induction m with
  | nil => simp [insertKey, cleanEntries, hu, hp, hi]
  | cons kv rest ih =>
      obtain ⟨k₀, v₀⟩ := kv
      by_cases h0 : k₀ = k
      · subst h0
        simp [insertKey, cleanEntries, hu, hp, hi]
      · by_cases hu0 : k₀ ∈ UNSUPPORTED_KEYWORDS
        · simp [insertKey, cleanEntries, h0, hu0, ih]
        · by_cases hp0 : k₀ = "properties"
          · subst hp0
            simp [insertKey, cleanEntries, h0, hu0, Ne.symm h0, ih]
          · by_cases hi0 : k₀ = "items"
            · subst hi0
              simp [insertKey, cleanEntries, h0, hu0, hp0, Ne.symm h0, ih]
            · simp [insertKey, cleanEntries, h0, hu0, hp0, hi0, Ne.symm h0, ih]

theorem cleanSafeKvs_type_ok : ∀ {kvs : JsObj} {v : Json},
    cleanSafeKvs kvs = true → jlookup "type" kvs = some v → okTypeVal v = true := by
  intro kvs
  induction kvs with
  | nil => intro v _ hl; simp [jlookup] at hl
  | cons kv rest ih =>
      obtain ⟨k, v₀⟩ := kv
      intro v hs hl
      rw [cleanSafeKvs] at hs
      by_cases hk : k = "type"
      · subst hk
        simp [jlookup] at hl
        subst hl
        simp at hs
        exact hs.1.1
      · simp [jlookup, hk] at hl
        simp at hs
        exact ih hs.2 hl

theorem cleanEntries_insertNullable (m : JsObj) :
    cleanEntries (insertKey "nullable" (.bool true) m) =
      insertKey "nullable" (.bool true) (cleanEntries m) :=
  cleanEntries_insertKey_comm _ (by decide) (by decide) (by decide) m

theorem cleanEntries_insertType (t : Json) (m : JsObj) :
    cleanEntries (insertKey "type" t m) = insertKey "type" t (cleanEntries m) :=
  cleanEntries_insertKey_comm _ (by decide) (by decide) (by decide) m

theorem cleanNode_of (kvs : JsObj)
    (hEnt : cleanEntries (cleanEntries kvs) = cleanEntries kvs)
    (hs : cleanSafeKvs kvs = true) :
    applyTypeCoercion
        (cleanEntries (applyTypeCoercion (cleanEntries kvs) (genTypeItems kvs)))
        (genTypeItems (applyTypeCoercion (cleanEntries kvs) (genTypeItems kvs))) =
      applyTypeCoercion (cleanEntries kvs) (genTypeItems kvs) := by
  have htP : jlookup "type" (cleanEntries kvs) = jlookup "type" kvs :=
    jlookup_type_cleanEntries kvs
  rcases hjt : jlookup "type" kvs with _ | v
  · have hOUT : applyTypeCoercion (cleanEntries kvs) (genTypeItems kvs) = cleanEntries kvs := by
      simp [applyTypeCoercion, htP, hjt]
    rw [hOUT, hEnt]
    simp [applyTypeCoercion, htP, hjt, hEnt]
  · match v with
    | .null | .bool _ | .num _ | .str _ | .obj _ =>
        have hOUT : applyTypeCoercion (cleanEntries kvs) (genTypeItems kvs) = cleanEntries kvs := by
          simp [applyTypeCoercion, htP, hjt]
        rw [hOUT, hEnt]
        simp [applyTypeCoercion, htP, hjt, hEnt]
    | .arr ts =>
        have hok := cleanSafeKvs_type_ok hs hjt
        rw [okTypeVal] at hok
        simp only [Bool.and_eq_true, decide_eq_true_eq, List.all_eq_true] at hok
        obtain ⟨hcount, hall⟩ := hok
        rcases hfl : ts.filter (fun t => !isNullTy t) with _ | ⟨t, _ | ⟨t₂, rr⟩⟩
        · by_cases hnull : ts.any isNullTy
          · have hOUT : applyTypeCoercion (cleanEntries kvs) (genTypeItems kvs) =
                insertKey "nullable" (.bool true) (cleanEntries kvs) := by
              simp [applyTypeCoercion, htP, hjt, hnull, hfl]
            rw [hOUT]
            have hc : cleanEntries (insertKey "nullable" (.bool true) (cleanEntries kvs)) =
                insertKey "nullable" (.bool true) (cleanEntries kvs) := by
              rw [cleanEntries_insertNullable, hEnt]
            have hl : jlookup "type"
                (insertKey "nullable" (.bool true) (cleanEntries kvs)) =
                some (.arr ts) := by
              rw [jlookup_insertKey_other (by decide), htP, hjt]
            have hnul : jlookup "nullable"
                (insertKey "nullable" (.bool true) (cleanEntries kvs)) =
                some (.bool true) := jlookup_insertKey_self _ _ _
            simp [applyTypeCoercion, hc, hl, hnull, hfl, insertKey_of_jlookup_eq hnul]
          · have hts : ts = [] := by
              cases ts with
              | nil => rfl
              | cons t₀ ts₀ =>
                  exfalso
                  have := List.filter_eq_nil_iff.mp hfl t₀ (by simp)
                  simp [List.any_cons] at hnull
                  simp [hnull.1] at this
            subst hts
            have hOUT : applyTypeCoercion (cleanEntries kvs) (genTypeItems kvs) =
                cleanEntries kvs := by
              simp [applyTypeCoercion, htP, hjt]
            rw [hOUT, hEnt]
            simp [applyTypeCoercion, htP, hjt, hEnt]
        · have htmem : t ∈ ts := List.mem_of_mem_filter (by rw [hfl]; simp)
          have htarr : t.isArr = false := by simpa using hall t htmem
          by_cases hnull : ts.any isNullTy
          · have hOUT : applyTypeCoercion (cleanEntries kvs) (genTypeItems kvs) =
                insertKey "type" t (insertKey "nullable" (.bool true) (cleanEntries kvs)) := by
              simp [applyTypeCoercion, htP, hjt, hnull, hfl]
            rw [hOUT]
            have hc : cleanEntries
                (insertKey "type" t (insertKey "nullable" (.bool true) (cleanEntries kvs))) =
                insertKey "type" t (insertKey "nullable" (.bool true) (cleanEntries kvs)) := by
              rw [cleanEntries_insertType, cleanEntries_insertNullable, hEnt]
            have hl : jlookup "type"
                (insertKey "type" t (insertKey "nullable" (.bool true) (cleanEntries kvs))) =
                some t := jlookup_insertKey_self _ _ _
            match t, htarr with
            | .null, _ | .bool _, _ | .num _, _ | .str _, _ | .obj _, _ =>
                simp [applyTypeCoercion, hc, hl]
          · have hOUT : applyTypeCoercion (cleanEntries kvs) (genTypeItems kvs) =
                insertKey "type" t (cleanEntries kvs) := by
              simp [applyTypeCoercion, htP, hjt, hnull, hfl]
            rw [hOUT]
            have hc : cleanEntries (insertKey "type" t (cleanEntries kvs)) =
                insertKey "type" t (cleanEntries kvs) := by
              rw [cleanEntries_insertType, hEnt]
            have hl : jlookup "type" (insertKey "type" t (cleanEntries kvs)) =
                some t := jlookup_insertKey_self _ _ _
            match t, htarr with
            | .null, _ | .bool _, _ | .num _, _ | .str _, _ | .obj _, _ =>
                simp [applyTypeCoercion, hc, hl]
        · exfalso
          rw [countNonNull, hfl] at hcount
          simp at hcount

mutual
theorem cleanIdemAux : ∀ j, cleanSafe j = true →
    clean_json_schema (clean_json_schema j) = clean_json_schema j
  | .null, _ => rfl
  | .bool _, _ => rfl
  | .num _, _ => rfl
  | .str _, _ => rfl
  | .arr _, _ => rfl
  | .obj kvs, h => by
      have hk : cleanSafeKvs kvs = true := by simpa [cleanSafe] using h
      show Json.obj _ = Json.obj _
      exact congrArg Json.obj (cleanNode_of kvs (cleanEntriesIdemAux kvs hk) hk)

theorem cleanEntriesIdemAux : ∀ kvs : JsObj, cleanSafeKvs kvs = true →
    cleanEntries (cleanEntries kvs) = cleanEntries kvs
  | [], _ => rfl
  | (k, v) :: rest, h => by
      have hv : cleanSafe v = true := by
        rw [cleanSafeKvs] at h; simp at h; exact h.1.2
      have hr : cleanSafeKvs rest = true := by
        rw [cleanSafeKvs] at h; simp at h; exact h.2
      by_cases hu : k ∈ UNSUPPORTED_KEYWORDS
      · simp [cleanEntries, hu, cleanEntriesIdemAux rest hr]
      · by_cases hp : k = "properties"
        · subst hp
          simp [cleanEntries, hu, cleanPropsValIdemAux v hv, cleanEntriesIdemAux rest hr]
        · by_cases hi : k = "items"
          · subst hi
            simp [cleanEntries, hu, hp, cleanItemsValIdemAux v hv,
              cleanEntriesIdemAux rest hr]
          · simp [cleanEntries, hu, hp, hi, cleanEntriesIdemAux rest hr]

theorem cleanPropsValIdemAux : ∀ v, cleanSafe v = true →
    cleanPropsVal (cleanPropsVal v) = cleanPropsVal v
  | .null, _ => rfl
  | .bool _, _ => rfl
  | .num _, _ => rfl
  | .str _, _ => rfl
  | .arr _, _ => rfl
  | .obj ps, h => by
      have hk : cleanSafeKvs ps = true := by simpa [cleanSafe] using h
      show Json.obj _ = Json.obj _
      exact congrArg Json.obj (cleanValsIdemAux ps hk)

theorem cleanValsIdemAux : ∀ ps : JsObj, cleanSafeKvs ps = true →
    cleanVals (cleanVals ps) = cleanVals ps
  | [], _ => rfl
  | (k, v) :: rest, h => by
      have hv : cleanSafe v = true := by
        rw [cleanSafeKvs] at h; simp at h; exact h.1.2
      have hr : cleanSafeKvs rest = true := by
        rw [cleanSafeKvs] at h; simp at h; exact h.2
      simp [cleanVals, cleanIdemAux v hv, cleanValsIdemAux rest hr]

theorem cleanItemsValIdemAux : ∀ v, cleanSafe v = true →
    cleanItemsVal (cleanItemsVal v) = cleanItemsVal v
  | .null, _ => rfl
  | .bool _, _ => rfl
  | .num _, _ => rfl
  | .str _, _ => rfl
  | .arr xs, h => by
      have hk : cleanSafeList xs = true := by simpa [cleanSafe] using h
      show Json.arr _ = Json.arr _
      exact congrArg Json.arr (cleanListIdemAux xs hk)
  | .obj kvs, h => by
      have hk : cleanSafeKvs kvs = true := by simpa [cleanSafe] using h
      show Json.obj _ = Json.obj _
      exact congrArg Json.obj (cleanNode_of kvs (cleanEntriesIdemAux kvs hk) hk)

theorem cleanListIdemAux : ∀ xs : List Json, cleanSafeList xs = true →
    cleanList (cleanList xs) = cleanList xs
  | [], _ => rfl
  | x :: xs, h => by
      have hx : cleanSafe x = true := by
        rw [cleanSafeList] at h; simp at h; exact h.1
      have hr : cleanSafeList xs = true := by
        rw [cleanSafeList] at h; simp at h; exact h.2
      simp [cleanList, cleanIdemAux x hx, cleanListIdemAux xs hr]
end

/-- C1, amended.  `clean_json_schema` is idempotent on every schema in which
no `type` binding holds an array with two or more non-`"null"` entries or
with an array entry (`cleanSafe`).  On other schemas a single pass coerces
the multi-type array into an `anyOf`, which the second pass deletes as an
unsupported keyword (see the counterexample), so the unconditional claim
fails. -/
theorem C1_clean_json_schema_idempotent_on_safe (s : Json)
    (hs : cleanSafe s = true) :
    clean_json_schema (clean_json_schema s) = clean_json_schema s :=
  cleanIdemAux s hs

/-- C1, witness: the amended theorem applied to a concrete schema whose
nested nullable type array exercises the coercion. -/
theorem C1_witness :
    cleanSafe (.obj
      [("type", .str "object"),
       ("title", .str "t"),
       ("properties", .obj
         [("a", .obj [("type", .arr [.str "string", .str "null"])])])]) = true ∧
    clean_json_schema (clean_json_schema (.obj
      [("type", .str "object"),
       ("title", .str "t"),
       ("properties", .obj
         [("a", .obj [("type", .arr [.str "string", .str "null"])])])])) =
      clean_json_schema (.obj
      [("type", .str "object"),
       ("title", .str "t"),
       ("properties", .obj
         [("a", .obj [("type", .arr [.str "string", .str "null"])])])]) :=
  ⟨rfl, C1_clean_json_schema_idempotent_on_safe _ rfl⟩

theorem hasKey_eraseKey_other {k k' : String} (hne : k' ≠ k) :
    ∀ m : JsObj, hasKey k' (eraseKey k m) = hasKey k' m := by
  intro m
  induction m with
  | nil => rfl
  | cons kv rest ih =>
      obtain ⟨k₀, v₀⟩ := kv
      by_cases h : k₀ = k
      · subst h
        simp [eraseKey, hasKey, Ne.symm hne, ih]
      · simp [eraseKey, hasKey, h, ih]

theorem eraseKey_of_jlookup_none {k : String} :
    ∀ {m : JsObj}, jlookup k m = none → eraseKey k m = m := by
  intro m
  induction m with
  | nil => intro; rfl
  | cons kv rest ih =>
      obtain ⟨k₀, v₀⟩ := kv
      intro h
      by_cases hk : k₀ = k
      · subst hk
        simp [jlookup] at h
      · simp [jlookup, hk] at h
        simp [eraseKey, hk, ih h]

theorem renameKey_spec {src dst : String} (hne : src ≠ dst) {kvs : JsObj} {v : Json}
    (hsrc : jlookup src kvs = some v) (hdst : hasKey dst kvs = false) :
    jlookup dst (renameKey src dst kvs) = some v ∧
    jlookup src (renameKey src dst kvs) = none ∧
    ∀ k, k ≠ src → k ≠ dst → jlookup k (renameKey src dst kvs) = jlookup k kvs := by
  have hdstm : hasKey dst (eraseKey src kvs) = false := by
    rw [hasKey_eraseKey_other (Ne.symm hne)]; exact hdst
  have hr : renameKey src dst kvs = insertKey dst v (eraseKey src kvs) := by
    simp [renameKey, hsrc, hdstm]
  refine ⟨?_, ?_, ?_⟩
  · rw [hr, jlookup_insertKey_self]
  · rw [hr, jlookup_insertKey_other hne, jlookup_eraseKey_self]
  · intro k hks hkd
    rw [hr, jlookup_insertKey_other hkd, jlookup_eraseKey_other hks]

/-- C3, counterexample.  The spec's section-4.3 table includes `web_search`
with rename `q` to `query`, but `remap_function_call_args` — the client-to-
upstream remapping function the table describes — has no `web_search` arm:
arguments `{q: "rust"}` come back unchanged, with `q` still present and
`query` absent, refuting the claim as stated for that tool. -/
theorem C3_counterexample :
    remap_function_call_args "web_search" (.obj [("q", .str "rust")]) =
      .obj [("q", .str "rust")] ∧
    (remap_function_call_args "web_search" (.obj [("q", .str "rust")])).get "query" =
      none ∧
    (remap_function_call_args "web_search" (.obj [("q", .str "rust")])).get "q" =
      some (.str "rust") := ⟨rfl, rfl, rfl⟩

/-- C3, amended.  For the seven tool names that `remap_function_call_args`
handles (`Grep`, `Glob`, `Read`, `Write`, `Edit`, `ListDir`, `LS`), an object
argument containing the source key and not the destination key is remapped to
contain the destination key bound to the source's value, no source key, and
every other key unchanged.  The `web_search` rename `q` to `query` is not
performed by `remap_function_call_args`; it is performed — with the same
property — by `remap_oai_to_claude_args`. -/
theorem C3_remap_source_to_destination :
    (∀ tool src dst, (tool, src, dst) ∈ remapTable →
      ∀ (kvs : JsObj) (v : Json), jlookup src kvs = some v → hasKey dst kvs = false →
        (remap_function_call_args tool (.obj kvs)).get dst = some v ∧
        (remap_function_call_args tool (.obj kvs)).get src = none ∧
        ∀ k, k ≠ src → k ≠ dst →
          (remap_function_call_args tool (.obj kvs)).get k = jlookup k kvs) ∧
    (∀ (kvs : JsObj) (v : Json), jlookup "q" kvs = some v → hasKey "query" kvs = false →
      (remap_oai_to_claude_args "web_search" (.obj kvs)).get "query" = some v ∧
      (remap_oai_to_claude_args "web_search" (.obj kvs)).get "q" = none ∧
      ∀ k, k ≠ "q" → k ≠ "query" →
        (remap_oai_to_claude_args "web_search" (.obj kvs)).get k = jlookup k kvs) := by
  constructor
  · intro tool src dst hmem kvs v hsrc hdst
    have hspec : ∀ s d, s ≠ d → jlookup s kvs = some v → hasKey d kvs = false →
        jlookup d (renameKey s d kvs) = some v ∧
        jlookup s (renameKey s d kvs) = none ∧
        ∀ k, k ≠ s → k ≠ d → jlookup k (renameKey s d kvs) = jlookup k kvs :=
      fun s d hne h1 h2 => renameKey_spec hne h1 h2
    simp only [remapTable, List.mem_cons, List.not_mem_nil, or_false,
      Prod.mk.injEq] at hmem
    rcases hmem with ⟨h1, h2, h3⟩ | ⟨h1, h2, h3⟩ | ⟨h1, h2, h3⟩ | ⟨h1, h2, h3⟩ |
      ⟨h1, h2, h3⟩ | ⟨h1, h2, h3⟩ | ⟨h1, h2, h3⟩ <;>
      subst h1 <;> subst h2 <;> subst h3 <;>
      simpa [remap_function_call_args, Json.get] using
        hspec _ _ (by decide) hsrc hdst
  · intro kvs v hsrc hdst
    have hq : remap_oai_to_claude_args "web_search" (.obj kvs) =
        .obj (eraseKey "q" (insertKey "query" v kvs)) := by
      simp [remap_oai_to_claude_args, hsrc, hdst]
    refine ⟨?_, ?_, ?_⟩
    · rw [hq]
      show jlookup "query" _ = some v
      rw [jlookup_eraseKey_other (by decide), jlookup_insertKey_self]
    · rw [hq]
      show jlookup "q" _ = none
      rw [jlookup_eraseKey_self]
    · intro k hkq hkquery
      rw [hq]
      show jlookup k _ = jlookup k kvs
      rw [jlookup_eraseKey_other hkq, jlookup_insertKey_other hkquery]

/-- C3, witness: a `Grep` call with `query` and an unrelated key, and a
`web_search` call with `q`, both remapped at concrete inputs. -/
theorem C3_witness :
    ("Grep", "query", "pattern") ∈ remapTable ∧
    jlookup "query" [("query", Json.str "needle"), ("path", Json.str "/p")] =
      some (.str "needle") ∧
    hasKey "pattern" [("query", Json.str "needle"), ("path", Json.str "/p")] = false ∧
    (remap_function_call_args "Grep"
        (.obj [("query", .str "needle"), ("path", .str "/p")])).get "pattern" =
      some (.str "needle") ∧
    (remap_oai_to_claude_args "web_search" (.obj [("q", .str "rust")])).get "query" =
      some (.str "rust") := by
  refine ⟨by decide, rfl, rfl, ?_, ?_⟩
  · exact (C3_remap_source_to_destination.1 "Grep" "query" "pattern" (by decide)
      [("query", Json.str "needle"), ("path", Json.str "/p")] (.str "needle")
      rfl rfl).1
  · exact (C3_remap_source_to_destination.2 [("q", Json.str "rust")] (.str "rust")
      rfl rfl).1

theorem renameKey_dst_present (src dst : String) (hne : src ≠ dst) (kvs : JsObj)
    (hdst : hasKey dst kvs = true) :
    Json.obj (renameKey src dst kvs) = .obj (eraseKey src kvs) ∧
    (Json.obj (renameKey src dst kvs)).get dst = jlookup dst kvs := by
  have hr : renameKey src dst kvs = eraseKey src kvs := by
    rcases hsrc : jlookup src kvs with _ | v
    · rw [renameKey, hsrc, eraseKey_of_jlookup_none hsrc]
    · have : hasKey dst (eraseKey src kvs) = true := by
        rw [hasKey_eraseKey_other (Ne.symm hne)]; exact hdst
      simp [renameKey, hsrc, this]
  rw [hr]
  exact ⟨rfl, jlookup_eraseKey_other (Ne.symm hne) kvs⟩

theorem renameKey_src_absent (src dst : String) (kvs : JsObj)
    (hsrc : jlookup src kvs = none) :
    Json.obj (renameKey src dst kvs) = .obj kvs := by
  rw [renameKey, hsrc]

/-- C6, counterexample.  The claim says that for every remapped tool a
destination key already present makes the remapper remove the source key;
but `remap_oai_to_claude_args` on `web_search` arguments that already carry
`query` does nothing at all: the source key `q` survives. -/
theorem C6_counterexample :
    remap_oai_to_claude_args "web_search"
        (.obj [("q", .str "a"), ("query", .str "b")]) =
      .obj [("q", .str "a"), ("query", .str "b")] ∧
    (remap_oai_to_claude_args "web_search"
        (.obj [("q", .str "a"), ("query", .str "b")])).get "q" = some (.str "a") ∧
    (remap_oai_to_claude_args "web_search"
        (.obj [("q", .str "a"), ("query", .str "b")])).get "query" =
      some (.str "b") := ⟨rfl, rfl, rfl⟩

/-- C6, amended.  For `remap_function_call_args` the rename rule holds as
claimed: a present destination key makes the remapper drop the source key and
keep the destination value; an absent source key, a non-object argument and an
unknown tool leave the arguments unchanged.  `remap_oai_to_claude_args`
satisfies the non-object, source-absent and non-`web_search` clauses, but when
the destination `query` is already present it leaves the arguments entirely
unchanged — the source key `q` is not removed. -/
theorem C6_remap_rename_rules :
    (∀ tool src dst, (tool, src, dst) ∈ remapTable → ∀ kvs : JsObj,
      hasKey dst kvs = true →
        remap_function_call_args tool (.obj kvs) = .obj (eraseKey src kvs) ∧
        (remap_function_call_args tool (.obj kvs)).get dst = jlookup dst kvs) ∧
    (∀ tool src dst, (tool, src, dst) ∈ remapTable → ∀ kvs : JsObj,
      jlookup src kvs = none →
        remap_function_call_args tool (.obj kvs) = .obj kvs) ∧
    (∀ tool j, j.isObj = false → remap_function_call_args tool j = j) ∧
    (∀ tool, tool ∉ ["Grep", "Glob", "Read", "Write", "Edit", "ListDir", "LS"] →
      ∀ j, remap_function_call_args tool j = j) ∧
    (∀ tool j, j.isObj = false → remap_oai_to_claude_args tool j = j) ∧
    (∀ tool j, tool ≠ "web_search" → remap_oai_to_claude_args tool j = j) ∧
    (∀ kvs : JsObj, jlookup "q" kvs = none →
      remap_oai_to_claude_args "web_search" (.obj kvs) = .obj kvs) ∧
    (∀ kvs : JsObj, hasKey "query" kvs = true →
      remap_oai_to_claude_args "web_search" (.obj kvs) = .obj kvs) := by
  refine ⟨?_, ?_, ?_, ?_, ?_, ?_, ?_, ?_⟩
  · intro tool src dst hmem kvs hdst
    simp only [remapTable, List.mem_cons, List.not_mem_nil, or_false,
      Prod.mk.injEq] at hmem
    rcases hmem with ⟨h1, h2, h3⟩ | ⟨h1, h2, h3⟩ | ⟨h1, h2, h3⟩ | ⟨h1, h2, h3⟩ |
      ⟨h1, h2, h3⟩ | ⟨h1, h2, h3⟩ | ⟨h1, h2, h3⟩ <;>
      subst h1 <;> subst h2 <;> subst h3 <;>
      exact renameKey_dst_present _ _ (by decide) kvs hdst
  · intro tool src dst hmem kvs hsrc
    simp only [remapTable, List.mem_cons, List.not_mem_nil, or_false,
      Prod.mk.injEq] at hmem
    rcases hmem with ⟨h1, h2, h3⟩ | ⟨h1, h2, h3⟩ | ⟨h1, h2, h3⟩ | ⟨h1, h2, h3⟩ |
      ⟨h1, h2, h3⟩ | ⟨h1, h2, h3⟩ | ⟨h1, h2, h3⟩ <;>
      subst h1 <;> subst h2 <;> subst h3 <;>
      exact renameKey_src_absent _ _ kvs hsrc
  · intro tool j hj
    cases j <;> first | rfl | simp [Json.isObj] at hj
  · intro tool hmem j
    simp only [List.mem_cons, List.not_mem_nil, or_false] at hmem
    push_neg at hmem
    obtain ⟨n1, n2, n3, n4, n5, n6, n7⟩ := hmem
    cases j <;> simp [remap_function_call_args, n1, n2, n3, n4, n5, n6, n7]
  · intro tool j hj
    cases j <;> first | rfl | simp [Json.isObj] at hj
  · intro tool j hne
    cases j <;> simp [remap_oai_to_claude_args, hne]
  · intro kvs hq
    simp [remap_oai_to_claude_args, hq]
  · intro kvs hquery
    rcases hq : jlookup "q" kvs with _ | v <;>
      simp [remap_oai_to_claude_args, hq, hquery]

/-- C6, witness: the rename rules applied at concrete inputs — a `Grep` call
whose `pattern` is already present, and a `web_search` call without `q`. -/
theorem C6_witness :
    ("Grep", "query", "pattern") ∈ remapTable ∧
    hasKey "pattern" [("query", Json.str "old"), ("pattern", Json.str "keep")] = true ∧
    remap_function_call_args "Grep"
        (.obj [("query", .str "old"), ("pattern", .str "keep")]) =
      .obj [("pattern", .str "keep")] ∧
    remap_oai_to_claude_args "web_search" (.obj [("query", .str "x")]) =
      .obj [("query", .str "x")] := by
  refine ⟨by decide, rfl, ?_, ?_⟩
  · exact (C6_remap_rename_rules.1 "Grep" "query" "pattern" (by decide)
      [("query", Json.str "old"), ("pattern", Json.str "keep")] rfl).1
  · exact C6_remap_rename_rules.2.2.2.2.2.2.1 [("query", Json.str "x")] rfl

theorem length_pos_of_ne_empty {s : String} (h : s ≠ "") : 0 < s.length := by
  cases s with
  | mk data =>
      cases data with
      | nil => exact absurd rfl h
      | cons c cs => simp [String.length]

/-- C9, confirmed.  The global signature slot ignores empty strings; a store
changes the slot iff the new value is non-empty and strictly longer than the
stored value (an empty slot counts as length zero, so any non-empty value
wins); a single store never shrinks the stored length; over any sequence of
stores the stored length never decreases; and only `clear_thought_signature`
resets the slot. -/
theorem C9_signature_slot_monotone :
    (∀ slot, store_thought_signature "" slot = slot) ∧
    (∀ sig slot, store_thought_signature sig slot ≠ slot ↔
      (sig ≠ "" ∧ slotLen slot < sig.length)) ∧
    (∀ sig slot, slotLen slot ≤ slotLen (store_thought_signature sig slot)) ∧
    (∀ sigs slot, slotLen slot ≤ slotLen (runStores sigs slot)) ∧
    (∀ slot, clear_thought_signature slot = none) := by
  have hempty : ∀ slot, store_thought_signature "" slot = slot := fun _ => rfl
  have hchange : ∀ sig slot, store_thought_signature sig slot ≠ slot ↔
      (sig ≠ "" ∧ slotLen slot < sig.length) := by
    intro sig slot
    by_cases he : sig = ""
    · subst he
      simp [hempty]
    · have hne : sig.isEmpty = false := by
        rcases h : sig.isEmpty with _ | _
        · rfl
        · exact absurd ((String.isEmpty_iff sig).mp (by simp [h])) he
      cases slot with
      | none =>
          simp [store_thought_signature, hne, slotLen, he]
          exact length_pos_of_ne_empty he
      | some existing =>
          by_cases hlt : existing.length < sig.length
          · have hsne : some sig ≠ some existing := by
              intro h
              rw [Option.some_inj] at h
              subst h
              exact lt_irrefl _ hlt
            simp [store_thought_signature, hne, hlt, slotLen, he, hsne]
          · simp [store_thought_signature, hne, hlt, slotLen, he]
  have hmono : ∀ sig slot, slotLen slot ≤ slotLen (store_thought_signature sig slot) := by
    intro sig slot
    by_cases he : sig.isEmpty
    · simp [store_thought_signature, he]
    · cases slot with
      | none => simp [store_thought_signature, he, slotLen]
      | some existing =>
          by_cases hlt : existing.length < sig.length
          · simp [store_thought_signature, he, hlt, slotLen]
            exact le_of_lt hlt
          · simp [store_thought_signature, he, hlt, slotLen]
  refine ⟨hempty, hchange, hmono, ?_, fun _ => rfl⟩
  intro sigs
  induction sigs with
  | nil => intro slot; simp [runStores]
  | cons sig rest ih =>
      intro slot
      have h1 := hmono sig slot
      have h2 := ih (store_thought_signature sig slot)
      calc slotLen slot ≤ slotLen (store_thought_signature sig slot) := h1
        _ ≤ slotLen (runStores rest (store_thought_signature sig slot)) := h2
        _ = slotLen (runStores (sig :: rest) slot) := by simp [runStores]

/-- C5, code bug.  The claim (with the spec's totality policy) says
`format_citations_as_markdown` returns a string for every citation list with
arbitrary Unicode snippets, truncating long snippets to 200 characters.  The
code byte-slices `&snippet[..200]`; on a snippet of 199 ASCII characters
followed by a three-byte character (202 bytes), byte 200 is not a character
boundary and the Rust function panics — modelled here by `none`.  (The code
also truncates to 200 bytes, not characters, and appends `"..."`.) -/
theorem C5_formatter_panics_on_unicode_boundary :
    strByteLen badSnippet = 202 ∧
    badSnippet.length = 200 ∧
    format_citations_as_markdown
      [⟨"https://e.com", "t", badSnippet, none, none⟩] none = none ∧
    merge_citations_into_text "answer"
      [⟨"https://e.com", "t", badSnippet, none, none⟩] none = none := by
  set_option maxRecDepth 4000 in
  refine ⟨?_, ?_, ?_, ?_⟩ <;> rfl

/-- C4, counterexample.  Cache-control stripping is not complete in the
claimed sense: a `cache_control` key on a block nested inside
`tool_result.content` survives `clean_cache_control_from_messages`
unchanged, because `ContentBlock::clear_cache_control` resets only the
block's own typed field and never recurses into the JSON payloads. -/
theorem C4_counterexample :
    clean_cache_control_from_messages
      [⟨.user, .blocks [.toolResult "toolu_1"
        (.arr [.obj [("type", .str "text"), ("text", .str "t"),
                     ("cache_control", .obj [("type", .str "ephemeral")])]])
        none none]⟩] =
      [⟨.user, .blocks [.toolResult "toolu_1"
        (.arr [.obj [("type", .str "text"), ("text", .str "t"),
                     ("cache_control", .obj [("type", .str "ephemeral")])]])
        none none]⟩] ∧
    messagesMentionCacheControl (clean_cache_control_from_messages
      [⟨.user, .blocks [.toolResult "toolu_1"
        (.arr [.obj [("type", .str "text"), ("text", .str "t"),
                     ("cache_control", .obj [("type", .str "ephemeral")])]])
        none none]⟩]) = true := ⟨rfl, rfl⟩

/-- C4, amended.  After `clean_cache_control_from_messages` no block of any
message carries a top-level (typed) `cache_control` field; `cache_control`
keys nested inside `tool_result.content` JSON or inside the flattened raw
data of `search_result`/`server_tool_use`/`web_search_tool_result` blocks
are not removed. -/
theorem C4_cache_control_stripping_top_level :
    ∀ msgs : List Message,
      (clean_cache_control_from_messages msgs).all
        (fun m => m.blocksOf.all (fun b => b.ownCacheControl.isNone)) = true := by
  intro msgs
  rw [List.all_eq_true]
  intro m hm
  rw [clean_cache_control_from_messages, List.mem_map] at hm
  obtain ⟨m₀, _, rfl⟩ := hm
  rw [List.all_eq_true]
  intro b hb
  have hblocks : (m₀.clear_cache_control).blocksOf =
      m₀.blocksOf.map ContentBlock.clear_cache_control := by
    rcases m₀ with ⟨role, content⟩
    cases content <;> rfl
  rw [hblocks, List.mem_map] at hb
  obtain ⟨b₀, _, rfl⟩ := hb
  cases b₀ <;> rfl

/-- C7, confirmed.  Converting an OpenAI `role:"tool"` message with string
content yields exactly one canonical user message whose content is a single
`tool_result` block with `tool_use_id` equal to the incoming `tool_call_id`
and content equal to the original content string (a `Json.str`, never parsed
into an object).  The second conjunct is the spec's scenario S3. -/
theorem C7_tool_role_stays_string :
    (∀ (id text : String) (tcs : Option (List OaiToolCall)) (anns : Option (List Json)),
      convert_oai_message ⟨.tool, .text text, some id, tcs, anns⟩ =
        ⟨.user, .blocks [.toolResult id (.str text) none none]⟩) ∧
    convert_oai_message
        ⟨.tool, .text "\x7b\"result\": \"success\"\x7d", some "call_123", none, none⟩ =
      ⟨.user, .blocks [.toolResult "call_123"
        (.str "\x7b\"result\": \"success\"\x7d") none none]⟩ :=
  ⟨fun _ _ _ _ => rfl, rfl⟩

/-- C2, counterexample.  The request pipeline never calls `expand_refs` (the
source exports it but `From<OaiCreateMessageParams>` applies only
`move_constraints_to_description`, `clean_json_schema` and
`ensure_valid_schema`), so a `$ref` is simply deleted by cleaning instead of
being inlined first: on the schema `s` below the code pipeline leaves
property `x` as the empty object while the claimed expand-first pipeline
would make it `{type:"string"}`. -/
theorem C2_counterexample :
    convert_oai_tool (.function ⟨"f", none, some
      (.obj [("$defs", .obj [("A", .obj [("type", .str "string")])]),
             ("type", .str "object"),
             ("properties", .obj [("x", .obj [("$ref", .str "#/$defs/A")])])])⟩) =
      some (.custom ⟨"f", none,
        .obj [("type", .str "object"), ("properties", .obj [("x", .obj [])])],
        none, some .custom⟩) ∧
    code_tool_schema_pipeline
      (.obj [("$defs", .obj [("A", .obj [("type", .str "string")])]),
             ("type", .str "object"),
             ("properties", .obj [("x", .obj [("$ref", .str "#/$defs/A")])])]) =
      .obj [("type", .str "object"), ("properties", .obj [("x", .obj [])])] ∧
    spec_tool_schema_pipeline
      (.obj [("$defs", .obj [("A", .obj [("type", .str "string")])]),
             ("type", .str "object"),
             ("properties", .obj [("x", .obj [("$ref", .str "#/$defs/A")])])]) =
      .obj [("type", .str "object"),
            ("properties", .obj [("x", .obj [("type", .str "string")])])] ∧
    code_tool_schema_pipeline
      (.obj [("$defs", .obj [("A", .obj [("type", .str "string")])]),
             ("type", .str "object"),
             ("properties", .obj [("x", .obj [("$ref", .str "#/$defs/A")])])]) ≠
    spec_tool_schema_pipeline
      (.obj [("$defs", .obj [("A", .obj [("type", .str "string")])]),
             ("type", .str "object"),
             ("properties", .obj [("x", .obj [("$ref", .str "#/$defs/A")])])]) := by
  refine ⟨rfl, rfl, rfl, ?_⟩
  intro h
  have h' : Json.obj [("type", .str "object"),
      ("properties", .obj [("x", .obj [])])] =
      .obj [("type", .str "object"),
            ("properties", .obj [("x", .obj [("type", .str "string")])])] := h
  simp at h'

/-- C2, amended.  In the OpenAI-dialect request conversion every custom
function tool's input schema is processed by
`move_constraints_to_description`, then `clean_json_schema`, then
`ensure_valid_schema`, in that order; `expand_refs` is not applied, so
`$ref` keys are removed by cleaning rather than inlined.  The first conjunct
covers a non-built-in function tool (with the source's
`{type:"object",properties:{}}` default when `parameters` is absent), the
second a pass-through custom tool, the third lifts the first to the
request's tool list. -/
theorem C2_tool_schema_pipeline_order :
    (∀ f : OaiToolFunction, f.name ≠ "web_search" → f.name ≠ "bash" →
      f.name ≠ "str_replace_editor" → f.name ≠ "str_replace_based_edit_tool" →
      convert_oai_tool (.function f) =
        some (.custom ⟨f.name, f.description,
          code_tool_schema_pipeline
            (f.parameters.getD (.obj [("type", .str "object"), ("properties", .obj [])])),
          none, some .custom⟩)) ∧
    (∀ c : CustomTool, convert_oai_tool (.custom c) =
      some (.custom ⟨c.name, c.description,
        code_tool_schema_pipeline c.input_schema, c.cache_control, some .custom⟩)) ∧
    (∀ f : OaiToolFunction, f.name ≠ "web_search" → f.name ≠ "bash" →
      f.name ≠ "str_replace_editor" → f.name ≠ "str_replace_based_edit_tool" →
      convert_oai_tools (some [.function f]) =
        some [.custom ⟨f.name, f.description,
          code_tool_schema_pipeline
            (f.parameters.getD (.obj [("type", .str "object"), ("properties", .obj [])])),
          none, some .custom⟩]) := by
  have h1 : ∀ f : OaiToolFunction, f.name ≠ "web_search" → f.name ≠ "bash" →
      f.name ≠ "str_replace_editor" → f.name ≠ "str_replace_based_edit_tool" →
      convert_oai_tool (.function f) =
        some (.custom ⟨f.name, f.description,
          code_tool_schema_pipeline
            (f.parameters.getD (.obj [("type", .str "object"), ("properties", .obj [])])),
          none, some .custom⟩) := by
    intro f h1 h2 h3 h4
    simp [convert_oai_tool, oaiToolToTool, h1, h2, h3, h4, code_tool_schema_pipeline]
  refine ⟨h1, ?_, ?_⟩
  · intro c
    rfl
  · intro f hf1 hf2 hf3 hf4
    simp [convert_oai_tools, List.filterMap, h1 f hf1 hf2 hf3 hf4]

/-- C2, witness: the amended pipeline order applied to a concrete tool with
a multi-type property schema. -/
theorem C2_witness :
    convert_oai_tool (.function ⟨"lookup", some "d", some
      (.obj [("type", .str "object"),
             ("properties", .obj [("n", .obj [("type", .str "string"),
                                              ("minLength", .num 1)])])])⟩) =
      some (.custom ⟨"lookup", some "d",
        code_tool_schema_pipeline
          (.obj [("type", .str "object"),
                 ("properties", .obj [("n", .obj [("type", .str "string"),
                                                  ("minLength", .num 1)])])]),
        none, some .custom⟩) :=
  C2_tool_schema_pipeline_order.1 _ (by decide) (by decide) (by decide) (by decide)

/-- Sanity: the JSON parser on a tool-argument fragment. -/
example : parseJson "\x7b\"path\": \"/f.txt\"\x7d" =
    some (.obj [("path", .str "/f.txt")]) := rfl

/-- Sanity: the JSON parser rejects garbage, and the fallback kicks in. -/
example : parseJsonOrEmptyObj "\x7b\"path\": " = .obj [] := rfl

/-- Sanity: the JSON encoder. -/
example : encodeJson (.obj [("file_path", .str "/f.txt"),
    ("n", .num 3), ("ok", .bool true), ("xs", .arr [.null, .str "a\nb"])]) =
    "\x7b\"file_path\":\"/f.txt\",\"n\":3,\"ok\":true,\"xs\":[null,\"a\\nb\"]\x7d" := rfl

/-- Sanity: parse and re-encode round-trips the S5 tool-call arguments. -/
example : (parseJson "\x7b\"path\":\"/f.txt\"\x7d").map encodeJson =
    some "\x7b\"path\":\"/f.txt\"\x7d" := rfl

/-- C10, confirmed.  On the Code ingress, a system prompt that is a JSON
string containing the token `Claude Code` makes preprocessing fail with
`BadRequest ("System prompt is not an array")`: the marker suppresses the
prelude injection that would have converted the string into an array, and
the subsequent `system_prompt_hash` step requires an array. -/
theorem C10_string_system_with_marker_rejected
    (s : String) (custom : Option String)
    (hmark : strContainsPat s "Claude Code" = true) :
    claude_code_system_preprocess custom (some (.str s)) =
      .error (.badRequest "System prompt is not an array") := by
  have hinj : injectCCPrelude custom (some (.str s)) = some (.str s) := by
    simp [injectCCPrelude, hasClaudeCodeSystem, hmark]
  rw [claude_code_system_preprocess, hinj]
  rfl

/-- C10, witness: the official marker sentence at a concrete input. -/
theorem C10_witness :
    strContainsPat "You are an agent for Claude Code, Anthropic's official CLI for Claude." "Claude Code" = true ∧
    claude_code_system_preprocess none
      (some (.str "You are an agent for Claude Code, Anthropic's official CLI for Claude.")) =
      .error (.badRequest "System prompt is not an array") :=
  ⟨rfl, C10_string_system_with_marker_rejected _ none rfl⟩

theorem bufLookup_insert_self {α : Type} (i : Nat) (v : α) :
    ∀ l : List (Nat × α), bufLookup i (bufInsert i v l) = some v := by
  intro l
  induction l with
  | nil => simp [bufInsert, bufLookup]
  | cons jw rest ih =>
      obtain ⟨j, w⟩ := jw
      by_cases h : j = i
      · simp [bufInsert, bufLookup, h]
      · simp [bufInsert, bufLookup, h, ih]

theorem bufLookup_insert_other {α : Type} {i j : Nat} (hne : i ≠ j) (v : α) :
    ∀ l : List (Nat × α), bufLookup i (bufInsert j v l) = bufLookup i l := by
  intro l
  induction l with
  | nil => simp [bufInsert, bufLookup, Ne.symm hne]
  | cons kw rest ih =>
      obtain ⟨k, w⟩ := kw
      by_cases h : k = j
      · subst h
        simp [bufInsert, bufLookup, Ne.symm hne]
      · simp [bufInsert, bufLookup, h, ih]

theorem bufLookup_remove_self {α : Type} (i : Nat) :
    ∀ l : List (Nat × α), bufLookup i (bufRemove i l) = none := by
  intro l
  induction l with
  | nil => simp [bufRemove, bufLookup]
  | cons jw rest ih =>
      obtain ⟨j, w⟩ := jw
      by_cases h : j = i
      · simp [bufRemove, h, ih]
      · simp [bufRemove, bufLookup, h, ih]

theorem bufLookup_remove_other {α : Type} {i j : Nat} (hne : i ≠ j) :
    ∀ l : List (Nat × α), bufLookup i (bufRemove j l) = bufLookup i l := by
  intro l
  induction l with
  | nil => simp [bufRemove, bufLookup]
  | cons kw rest ih =>
      obtain ⟨k, w⟩ := kw
      by_cases h : k = j
      · subst h
        simp [bufRemove, bufLookup, Ne.symm hne, ih]
      · simp [bufRemove, bufLookup, h, ih]

theorem transform_step_idxs (st : TransducerState) (ev : StreamEvent) :
    outToolCallIdxs (transform_step st ev).2 =
      List.range' st.tool_call_index
        ((transform_step st ev).1.tool_call_index - st.tool_call_index) ∧
    st.tool_call_index ≤ (transform_step st ev).1.tool_call_index := by
  cases ev with
  | messageStart => simp [transform_step, outToolCallIdxs]
  | messageDelta => simp [transform_step, outToolCallIdxs]
  | messageStop => simp [transform_step, outToolCallIdxs]
  | ping => simp [transform_step, outToolCallIdxs]
  | error => simp [transform_step, outToolCallIdxs]
  | contentBlockStart i b =>
      cases b <;> simp [transform_step, outToolCallIdxs]
  | contentBlockDelta i d =>
      cases d with
      | textDelta t =>
          simp [transform_step, outToolCallIdxs, EventContent.toolCallIdxs]
      | thinkingDelta t =>
          simp [transform_step, outToolCallIdxs, EventContent.toolCallIdxs]
      | inputJsonDelta pj =>
          rcases h : bufLookup i st.tool_call_buffer with _ | s <;>
            simp [transform_step, h, outToolCallIdxs]
      | signatureDelta s =>
          simp [transform_step, outToolCallIdxs]
  | contentBlockStop i =>
      rcases h : bufLookup i st.tool_call_buffer with _ | s
      · rcases h2 : bufLookup i st.web_search_buffer with _ | ws
        · simp [transform_step, h, h2, outToolCallIdxs]
        · by_cases hc : ws.citations.isEmpty <;>
            simp [transform_step, h, h2, hc, outToolCallIdxs,
              build_annotations_event, EventContent.toolCallIdxs]
      · simp [transform_step, h, outToolCallIdxs, build_tool_call_event,
          EventContent.toolCallIdxs, List.range']

theorem range'_glue : ∀ c0 c1 c2 : Nat, c0 ≤ c1 → c1 ≤ c2 →
    List.range' c0 (c1 - c0) ++ List.range' c1 (c2 - c1) = List.range' c0 (c2 - c0) := by
  intro c0 c1 c2 hA hB
  have h := List.range'_append c0 (c1 - c0) (c2 - c1) 1
  rw [show c0 + 1 * (c1 - c0) = c1 by omega] at h
  rw [show c2 - c1 + (c1 - c0) = c2 - c0 by omega] at h
  simpa using h

theorem transform_run_idxs : ∀ (evs : List StreamEvent) (st : TransducerState),
    outToolCallIdxs (transform_run st evs).2 =
      List.range' st.tool_call_index
        ((transform_run st evs).1.tool_call_index - st.tool_call_index) ∧
    st.tool_call_index ≤ (transform_run st evs).1.tool_call_index := by
  intro evs
  induction evs with
  | nil => intro st; simp [transform_run, outToolCallIdxs]
  | cons ev evs ih =>
      intro st
      obtain ⟨h1, hle1⟩ := transform_step_idxs st ev
      obtain ⟨h2, hle2⟩ := ih (transform_step st ev).1
      have happ : outToolCallIdxs ((transform_step st ev).2 ++
          (transform_run (transform_step st ev).1 evs).2) =
          outToolCallIdxs (transform_step st ev).2 ++
          outToolCallIdxs (transform_run (transform_step st ev).1 evs).2 := by
        simp [outToolCallIdxs]
      constructor
      · show outToolCallIdxs ((transform_step st ev).2 ++
            (transform_run (transform_step st ev).1 evs).2) =
          List.range' st.tool_call_index
            ((transform_run (transform_step st ev).1 evs).1.tool_call_index -
              st.tool_call_index)
        rw [happ, h1, h2, range'_glue _ _ _ hle1 hle2]
      · show st.tool_call_index ≤ (transform_run (transform_step st ev).1 evs).1.tool_call_index
        exact le_trans hle1 hle2

theorem transform_step_buffer_opened (st : TransducerState) (ev : StreamEvent) (i : Nat)
    (h : (bufLookup i (transform_step st ev).1.tool_call_buffer).isSome = true) :
    (bufLookup i st.tool_call_buffer).isSome = true ∨
      ∃ id name input sig cc, ev = .contentBlockStart i (.toolUse id name input sig cc) := by
  cases ev with
  | messageStart => exact Or.inl h
  | messageDelta => exact Or.inl h
  | messageStop => exact Or.inl h
  | ping => exact Or.inl h
  | error => exact Or.inl h
  | contentBlockStart j b =>
      cases b with
      | toolUse id name input sig cc =>
          by_cases hij : i = j
          · subst hij
            exact Or.inr ⟨id, name, input, sig, cc, rfl⟩
          · left
            simpa [transform_step, bufLookup_insert_other hij] using h
      | webSearchToolResult d => exact Or.inl h
      | searchResult d => exact Or.inl h
      | text t cc => exact Or.inl h
      | image s cc => exact Or.inl h
      | imageUrl u => exact Or.inl h
      | document s cc => exact Or.inl h
      | toolResult a b c d => exact Or.inl h
      | thinking a b c => exact Or.inl h
      | redactedThinking d => exact Or.inl h
      | serverToolUse d => exact Or.inl h
  | contentBlockDelta j d =>
      cases d with
      | textDelta t => exact Or.inl h
      | thinkingDelta t => exact Or.inl h
      | signatureDelta s => exact Or.inl h
      | inputJsonDelta pj =>
          rcases hl : bufLookup j st.tool_call_buffer with _ | s
          · left; simpa [transform_step, hl] using h
          · by_cases hij : i = j
            · subst hij
              left; simp [hl]
            · left
              simpa [transform_step, hl, bufLookup_insert_other hij] using h
  | contentBlockStop j =>
      rcases hl : bufLookup j st.tool_call_buffer with _ | s
      · rcases h2 : bufLookup j st.web_search_buffer with _ | ws
        · left; simpa [transform_step, hl, h2] using h
        · left; simpa [transform_step, hl, h2] using h
      · by_cases hij : i = j
        · subst hij
          exfalso
          rw [show (transform_step st (.contentBlockStop i)).1.tool_call_buffer =
              bufRemove i st.tool_call_buffer from by simp [transform_step, hl]] at h
          rw [bufLookup_remove_self] at h
          simp at h
        · left
          rw [show (transform_step st (.contentBlockStop j)).1.tool_call_buffer =
              bufRemove j st.tool_call_buffer from by simp [transform_step, hl]] at h
          rwa [bufLookup_remove_other hij] at h

theorem transform_run_buffer_opened :
    ∀ (evs : List StreamEvent) (st : TransducerState) (i : Nat),
      (bufLookup i (transform_run st evs).1.tool_call_buffer).isSome = true →
      (bufLookup i st.tool_call_buffer).isSome = true ∨
        ∃ id name input sig cc,
          StreamEvent.contentBlockStart i (.toolUse id name input sig cc) ∈ evs := by
  intro evs
  induction evs with
  | nil => intro st i h; exact Or.inl h
  | cons ev evs ih =>
      intro st i h
      rcases ih (transform_step st ev).1 i h with hmid | hopened
      · rcases transform_step_buffer_opened st ev i hmid with hpre | ⟨id, name, input, sig, cc, rfl⟩
        · exact Or.inl hpre
        · exact Or.inr ⟨id, name, input, sig, cc, List.mem_cons_self _ _⟩
      · obtain ⟨id, name, input, sig, cc, hmem⟩ := hopened
        exact Or.inr ⟨id, name, input, sig, cc, List.mem_cons_of_mem _ hmem⟩

theorem transform_step_no_toolcall_off_stop (st : TransducerState) (ev : StreamEvent)
    (h : ∀ i, ev ≠ .contentBlockStop i) :
    (transform_step st ev).2.filter EventContent.isToolCallFrame = [] := by
  cases ev with
  | contentBlockStop i => exact absurd rfl (h i)
  | messageStart => rfl
  | messageDelta => rfl
  | messageStop => rfl
  | ping => rfl
  | error => rfl
  | contentBlockStart i b => cases b <;> rfl
  | contentBlockDelta i d =>
      cases d with
      | textDelta t => rfl
      | thinkingDelta t => rfl
      | signatureDelta s => rfl
      | inputJsonDelta pj =>
          rcases hl : bufLookup i st.tool_call_buffer with _ | s <;>
            simp [transform_step, hl]

theorem transform_step_stop_miss (st : TransducerState) (i : Nat)
    (h : bufLookup i st.tool_call_buffer = none) :
    (transform_step st (.contentBlockStop i)).2.filter EventContent.isToolCallFrame = [] := by
  rcases h2 : bufLookup i st.web_search_buffer with _ | ws
  · simp [transform_step, h, h2]
  · by_cases hc : ws.citations.isEmpty <;>
      simp [transform_step, h, h2, hc, build_annotations_event, EventContent.isToolCallFrame]

theorem transform_step_stop_hit (st : TransducerState) (i : Nat) (s : ToolCallState)
    (h : bufLookup i st.tool_call_buffer = some s) :
    (transform_step st (.contentBlockStop i)).2 =
      [.toolCalls [⟨st.tool_call_index, s.id, "function",
        ⟨s.name, encodeJson (remap_function_call_args s.name
          (parseJsonOrEmptyObj s.arguments))⟩⟩]] ∧
    (transform_step st (.contentBlockStop i)).1.tool_call_index =
      st.tool_call_index + 1 ∧
    bufLookup i (transform_step st (.contentBlockStop i)).1.tool_call_buffer = none := by
  refine ⟨?_, ?_, ?_⟩
  · simp [transform_step, h, build_tool_call_event]
  · simp [transform_step, h]
  · simp [transform_step, h, bufLookup_remove_self]

/-- C8, confirmed.  In the stream transducer: a tool-call frame is emitted
only by the `content_block_stop` handler (conjuncts 1 and 2); on the stop of
a buffered tool-use block the emitted frame carries the accumulated argument
fragments JSON-parsed with an empty-object fallback, section-4.3-remapped
and re-encoded, at the current emit counter, which is then incremented and
the buffer entry dropped (conjunct 3); every buffered index was previously
opened by a `content_block_start` carrying a `tool_use` block (conjunct 4);
and across a whole stream from the initial state the emitted
`tool_calls[*].index` values are exactly `0, 1, 2, …` in order (conjunct 5).
Conjunct 6 is the spec's scenario S5 (`Read`, `path` renamed to
`file_path`). -/
theorem C8_stream_tool_call_frames :
    (∀ (st : TransducerState) (ev : StreamEvent), (∀ i, ev ≠ .contentBlockStop i) →
      (transform_step st ev).2.filter EventContent.isToolCallFrame = []) ∧
    (∀ (st : TransducerState) (i : Nat), bufLookup i st.tool_call_buffer = none →
      (transform_step st (.contentBlockStop i)).2.filter EventContent.isToolCallFrame = []) ∧
    (∀ (st : TransducerState) (i : Nat) (s : ToolCallState),
      bufLookup i st.tool_call_buffer = some s →
      (transform_step st (.contentBlockStop i)).2 =
        [.toolCalls [⟨st.tool_call_index, s.id, "function",
          ⟨s.name, encodeJson (remap_function_call_args s.name
            (parseJsonOrEmptyObj s.arguments))⟩⟩]] ∧
      (transform_step st (.contentBlockStop i)).1.tool_call_index =
        st.tool_call_index + 1 ∧
      bufLookup i (transform_step st (.contentBlockStop i)).1.tool_call_buffer = none) ∧
    (∀ (evs : List StreamEvent) (sig : Option String) (i : Nat),
      (bufLookup i ((transform_run (initTransducerState sig) evs).1.tool_call_buffer)).isSome = true →
      ∃ id name input s cc,
        StreamEvent.contentBlockStart i (.toolUse id name input s cc) ∈ evs) ∧
    (∀ (evs : List StreamEvent) (sig : Option String),
      outToolCallIdxs (transform_run (initTransducerState sig) evs).2 =
        List.range ((transform_run (initTransducerState sig) evs).1.tool_call_index)) ∧
    transform_run (initTransducerState none)
      [.contentBlockStart 0 (.toolUse "t1" "Read" (.obj []) none none),
       .contentBlockDelta 0 (.inputJsonDelta "\x7b\"path\":"),
       .contentBlockDelta 0 (.inputJsonDelta "\"/f.txt\"\x7d"),
       .contentBlockStop 0] =
      (⟨[], [], 1, none⟩,
       [.toolCalls [⟨0, "t1", "function",
          ⟨"Read", "\x7b\"file_path\":\"/f.txt\"\x7d"⟩⟩]]) := by
  refine ⟨transform_step_no_toolcall_off_stop, transform_step_stop_miss,
    transform_step_stop_hit, ?_, ?_, ?_⟩
  · intro evs sig i h
    rcases transform_run_buffer_opened evs (initTransducerState sig) i h with hpre | hop
    · simp [initTransducerState, bufLookup] at hpre
    · exact hop
  · intro evs sig
    obtain ⟨h1, _⟩ := transform_run_idxs evs (initTransducerState sig)
    rw [h1]
    rw [show (initTransducerState sig).tool_call_index = 0 from rfl]
    rw [List.range_eq_range']
    simp
  · rfl
